import Mathlib

/-!
Verification development for the Azure Disk Encryption extension core
(`VMEncryption/main/handle.py`): the resumable in-place (de)cryption phase
state machines, the crypt-item registry, the persisted marker configs and
the daemon dispatch loop.

The Python source is shallowly embedded as pure Lean functions.  Stateful
code becomes explicit state passing over `MachineState`; results of the
device-primitive interface (DiskUtil, BekUtil, CommandExecutor, the wire
server - all outside the in-scope source, specified in the spec only as an
interface contract) are supplied by an `Env` oracle record.  Python
exceptions and `sys.exit` are modelled by the `PyRes` result type.
Machine integers are `Int` (Python 2 ints are unbounded; `/` on ints is
floor division, i.e. `Int.fdiv`).
-/

/-- The phases of the in-place encryption / decryption state machines.
Modelled from the spec: `Common.py` (which defines the phase constants as
strings) is not part of the in-scope source; the spec describes the phase
as an enum with exactly these states. -/
inductive Phase where
  | BackupHeader
  | EncryptDevice
  | CopyData
  | RecoverHeader
  | EncryptionDone
  | DecryptionCopyData
  | DecryptionDone
  deriving DecidableEq, Repr

/-- Result of running a piece of embedded Python code:
`ret a` is a normal return, `exited ok` is `hutil.do_exit` / `sys.exit`
(terminating the process, `ok` distinguishing success from error status),
`exn` is a raised exception propagating to the caller, and `nonterm`
marks source code paths that loop forever. -/
inductive PyRes (α : Type) where
  | ret (a : α)
  | exited (ok : Bool)
  | exn
  | nonterm
  deriving DecidableEq, Repr

/-- Modelled from the spec: `CommonVariables.sector_size` lives in the
missing `Common.py`; the concrete value is irrelevant to the claims. -/
def sector_size : Int := 512

/-- Modelled from the spec: `CommonVariables.luks_header_size` ("one
LUKS-header's-worth of sectors") lives in the missing `Common.py`. -/
def luks_header_size : Int := 4096 * 512

/-- Modelled from the spec: `CommonVariables.default_block_size` lives in
the missing `Common.py`. -/
def default_block_size : Int := 52428800

/-- Modelled from the spec: `CommonVariables.process_success` (the success
return value of the primitive interface) lives in the missing `Common.py`;
process return codes are 0 on success. -/
def process_success : Int := 0

/-- Modelled from the spec: `CommonVariables.success`.  `Common.py` is not
in the in-scope source; the spec gives the primitive interface a plain
success/failure `Result`, and every in-scope comparison of a primitive
return value against `CommonVariables.success` (the umount check in
`enable_encryption_all_in_place`, the copy check in
`encrypt_inplace_with_separate_header_file`) only behaves as the spec
describes if `success` equals the primitives' success value, so both
denote the same value. -/
def common_success : Int := 0

/-- Modelled from the spec: `CommonVariables.dev_mapper_root`. -/
def dev_mapper_root : String := "/dev/mapper/"

/-- Modelled from the spec: `EncryptionEnvironment.copy_header_slice_file_path`,
the scratch file holding the backed-up header slice. -/
def copy_header_slice_file_path : String :=
  "/var/lib/azure_disk_encryption_config/azure_crypt_copy_header_slice_file"

/-- Modelled from the spec: the `CommonVariables` command name constants. -/
def EnableEncryption : String := "EnableEncryption"

/-- Modelled from the spec: the encrypt-and-format command name constant. -/
def EnableEncryptionFormat : String := "EnableEncryptionFormat"

/-- Modelled from the spec: the encrypt-and-format-all command name constant. -/
def EnableEncryptionFormatAll : String := "EnableEncryptionFormatAll"

/-- Modelled from the spec: the disable-encryption command name constant. -/
def DisableEncryption : String := "DisableEncryption"

/-- Modelled from the spec: `CommonVariables.default_file_system`. -/
def default_file_system : String := "ext4"

/-- Python's `str.lower()` as used by `handle.py` on ASCII command,
volume-type and file-system names: lowercase each character. -/
def strLower (s : String) : String := String.mk (s.data.map Char.toLower)

/-- One block device as enumerated by `DiskUtil.get_device_items`
(fields as consumed by `handle.py`; `mount_point` and `file_system` are
`None`-able in Python, hence `Option`). -/
structure DeviceItem where
  name : String
  size : Int
  file_system : Option String
  mount_point : Option String
  uuid : String
  deriving DecidableEq, Repr

/-- One encrypted volume's durable registry record (`CryptItem`).
`luks_header_path = none` models the source's `"None"` sentinel (the
persistence layer encodes the absent header path as a sentinel, decoded
back to `None` on read); `mount_point` keeps the source's literal
`"None"` string sentinel because `handle.py` itself compares against it. -/
structure CryptItem where
  mapper_name : String
  dev_path : String
  luks_header_path : Option String
  file_system : Option String
  uses_cleartext_key : Bool
  current_luks_slot : Int
  mount_point : String
  deriving DecidableEq, Repr

/-- The crash-resumption checkpoint (`OnGoingItemConfig`).  Every field is
optional: the Python object is built up attribute by attribute, and a
getter for an attribute that was never set yields `None`. -/
structure OngoingItemConfig where
  current_block_size : Option Int := none
  current_slice_index : Option Int := none
  device_size : Option Int := none
  file_system : Option String := none
  luks_header_file_path : Option String := none
  mapper_name : Option String := none
  mount_point : Option String := none
  original_dev_name_path : Option String := none
  original_dev_path : Option String := none
  phase : Option Phase := none
  current_source_path : Option String := none
  current_destination : Option String := none
  current_total_copy_size : Option Int := none
  from_end : Option Bool := none
  header_slice_file_path : Option String := none
  deriving DecidableEq, Repr

/-- The encryption intent marker (`EncryptionMarkConfig`): which top-level
command was requested, the volume scope and the disk-selection query. -/
structure EncryptionMarkConfig where
  command : String
  volume_type : Option String
  diskFormatQuery : String
  deriving DecidableEq, Repr

/-- The decryption intent marker (`DecryptionMarkConfig`). -/
structure DecryptionMarkConfig where
  command : String
  volume_type : Option String
  deriving DecidableEq, Repr

/-- The resolved key-wrapping metadata (`EncryptionConfig`); only the
fields `handle.py` consults are tracked. -/
structure EncryptionConfig where
  volume_type : Option String
  secret_seq_num : Option Int
  deriving DecidableEq, Repr

/-- One element of a disk format query (`diskFormatQuery` JSON), with `""`
for an absent field (the source tests `has_key` plus non-emptiness). -/
structure FormatItem where
  scsi : String := ""
  dev_path : String := ""
  name : String := ""
  full_mount_point : String := ""
  file_system : String := ""
  deriving DecidableEq, Repr

/-- Observable calls into the device-primitive interface, recorded in
order in the machine state's trace. -/
inductive Event where
  | copyCall (cfg : OngoingItemConfig)
  | encryptDiskCall (dev : String) (mapper : String) (header : Option String)
  | luksOpenCall (dev : String) (mapper : String)
  | addCryptItemCall (item : CryptItem)
  | removeMountInfoCall (mp : String)
  | mountCall (dev : String) (mp : String)
  | umountCall (mp : String)
  | expandFsCall (dev : String)
  | luksCloseCall (mapper : String)
  | restoreMountInfoCall (mp : String)
  | luksAddCleartextKeyCall (dev : String) (mapper : String) (code : Int)
  | formatDiskCall (dev : String) (fs : String)
  deriving DecidableEq, Repr

/-- The persisted state owned by the daemon, plus ghost observations.
`ongoing` is the OngoingItemConfig file (`none` = file absent; an
`Option` by construction, so at most one exists).  `uuidCounter` feeds
fresh `uuid.uuid4()` mapper names.  `encPathRuns` / `decPathRuns` are
ghost counters bumped only by the `daemon` dispatcher when it enters the
encryption / decryption branch, and `freshOngoingCommits` is a ghost
counter bumped exactly where a freshly constructed OngoingItemConfig is
committed. -/
structure MachineState where
  ongoing : Option OngoingItemConfig
  cryptItems : List CryptItem
  encryptionMark : Option EncryptionMarkConfig
  decryptionMark : Option DecryptionMarkConfig
  encryptionConfig : Option EncryptionConfig
  trace : List Event
  uuidCounter : Nat
  encPathRuns : Nat
  decPathRuns : Nat
  freshOngoingCommits : Nat
  deriving DecidableEq, Repr

/-- Results of the device-primitive interface and of the other external
collaborators, per the spec's interface contract (DiskUtil, BekUtil,
ProcessLock, the wire server and the OS-volume encryption machines are
outside the in-scope source). -/
structure Env where
  lock_ok : Bool
  new_uuid : Nat → String
  path_exists : String → Bool
  check_shrink_fs : String → Int → Int
  encrypt_disk : String → String → String → Option String → Int
  copyResult : OngoingItemConfig → Int
  copyCursor : OngoingItemConfig → Int
  luks_open : String → String → Option String → Int
  query_dev_id_path : String → String
  umount : String → Int
  create_luks_header : String → Option String
  luksDumpPayloadSectors : String → Option Int
  realpath : String → String
  device_items : List DeviceItem
  device_items_at : String → List DeviceItem
  should_skip_for_inplace : DeviceItem → Option String → Bool
  passphrase_device : String
  udev_table : String → Option String
  get_bek : Option String
  oldroot_code : Int
  current_seq : Int
  stamp_ok : Bool
  param_volume_type : Option String
  parse_disk_format_query : String → Option (List FormatItem)
  query_scsi : String → String
  format_disk : String → String → Int
  os_supported : Bool
  os_state_initial : String
  os_run_ok : Bool
  os_final_state : String
  luks_add_cleartext_key : String → String → Option String → Int
  encryption_status_os : String

/-- Append one primitive-call event to the trace. -/
def emit (e : Event) (st : MachineState) : MachineState :=
  { st with trace := st.trace ++ [e] }

/-- `ongoing_item_config.commit()`: persist the current descriptor. -/
def commitOngoing (cfg : OngoingItemConfig) (st : MachineState) : MachineState :=
  { st with ongoing := some cfg }

/-- Commit of a freshly constructed OngoingItemConfig (same persisted
effect as `commitOngoing`, plus the ghost creation counter). -/
def commitFreshOngoing (cfg : OngoingItemConfig) (st : MachineState) : MachineState :=
  { st with ongoing := some cfg, freshOngoingCommits := st.freshOngoingCommits + 1 }

/-- `ongoing_item_config.clear_config()`: delete the checkpoint file. -/
def clearOngoingConfig (st : MachineState) : MachineState :=
  { st with ongoing := none }

/-- `none_or_empty` from `handle.py`. -/
def none_or_empty : Option String → Bool
  | none => true
  | some s => s = ""

/-- `os.path.join(mount_point, ".azure_ade_backup_mount_info/")`. -/
def backupFolder (mp : String) : String := mp ++ "/.azure_ade_backup_mount_info/"

/-- `DiskUtil.add_crypt_item`.  Modelled from the spec: the registry add
"requires unique mapper name" and "must fail closed (reject), never
silently overwrite".  The backup-folder argument only affects where the
persistence layer writes, not the registry contents tracked here. -/
def addCryptItem (ci : CryptItem) (_backup_folder : Option String)
    (st : MachineState) : Bool × MachineState :=
  let st := emit (Event.addCryptItemCall ci) st
  if st.cryptItems.any (fun x => x.mapper_name = ci.mapper_name) then
    (false, st)
  else
    (true, { st with cryptItems := st.cryptItems ++ [ci] })

/-- `DiskUtil.update_crypt_item`.  Modelled from the spec: registry update
is "matched by mapper name". -/
def updateCryptItem (ci : CryptItem) (st : MachineState) : MachineState :=
  { st with cryptItems :=
      st.cryptItems.map (fun x => if x.mapper_name = ci.mapper_name then ci else x) }

/-- `DiskUtil.remove_crypt_item`.  Modelled from the spec: registry
remove, matched by mapper name. -/
def removeCryptItem (ci : CryptItem) (st : MachineState) : MachineState :=
  { st with cryptItems :=
      st.cryptItems.filter (fun x => x.mapper_name ≠ ci.mapper_name) }

/-- `disk_util.copy(ongoing_item_config)`.  Modelled from the spec: the
copy primitive "must itself update the slice cursor in OngoingItemConfig
and commit after each slice"; its result code and final cursor come from
the oracle, and the caller's in-memory descriptor object is the same
object the copy task mutated, so the updated descriptor is returned. -/
def doCopy (env : Env) (cfg : OngoingItemConfig) (st : MachineState) :
    Int × OngoingItemConfig × MachineState :=
  let st := emit (Event.copyCall cfg) st
  let code := env.copyResult cfg
  let cfg' := { cfg with current_slice_index := some (env.copyCursor cfg) }
  (code, cfg', { st with ongoing := some cfg' })

/-!
## Encrypt in place, no separate header file
(`encrypt_inplace_without_separate_header_file`, handle.py lines 820-1018)

The while loop only ever advances the phase
`BackupHeader → EncryptDevice → CopyData → RecoverHeader → Done`, so it is
embedded as one function per phase, each calling the next on success.
The locals `original_dev_path`, `mapper_name`, `device_size` are read from
the config once at function entry (source lines 857-862; a missing
mandatory field makes the source raise when the value is first used in
arithmetic or path construction, modelled as an immediate `exn`).
-/

/-- `RecoverHeader` phase of the no-separate-header machine
(source lines 952-1018). -/
def noSepRecoverHeader (env : Env) (_odev mapper : String) (_dsize : Int)
    (cfg : OngoingItemConfig) (st : MachineState) :
    PyRes (Option Phase) × MachineState :=
  let device_mapper_path := dev_mapper_root ++ mapper
  let cfg := { cfg with
    from_end := some false
    current_slice_index := some 0
    current_source_path := cfg.header_slice_file_path
    current_destination := some device_mapper_path
    current_total_copy_size := some default_block_size }
  let st := commitOngoing cfg st
  let res := doCopy env cfg st
  let code := res.1
  let cfg := res.2.1
  let st := res.2.2
  if code = process_success then
    match cfg.original_dev_name_path with
    | none => (PyRes.exn, st)
    | some onp =>
      let ci_mount : String :=
        match cfg.mount_point with
        | none => "None"
        | some mp => if mp = "" then "None" else mp
      let ci : CryptItem := {
        mapper_name := mapper
        dev_path := env.query_dev_id_path onp
        luks_header_path := none
        file_system := cfg.file_system
        uses_cleartext_key := false
        current_luks_slot := 0
        mount_point := ci_mount }
      let st :=
        if ci_mount ≠ "None" then
          let st := emit (Event.mountCall device_mapper_path ci_mount) st
          (addCryptItem ci (some (backupFolder ci_mount)) st).2
        else
          (addCryptItem ci none st).2
      let st :=
        match cfg.mount_point with
        | some mp => if mp ≠ "" then emit (Event.removeMountInfoCall mp) st else st
        | none => st
      let cfg := { cfg with phase := some Phase.EncryptionDone }
      let st := commitOngoing cfg st
      let st := emit (Event.expandFsCall device_mapper_path) st
      let st := clearOngoingConfig st
      (PyRes.ret (some Phase.EncryptionDone), st)
  else
    (PyRes.ret (some Phase.RecoverHeader), st)

/-- `CopyData` phase of the no-separate-header machine
(source lines 931-950). -/
def noSepCopyData (env : Env) (odev mapper : String) (dsize : Int)
    (cfg : OngoingItemConfig) (st : MachineState) :
    PyRes (Option Phase) × MachineState :=
  let device_mapper_path := dev_mapper_root ++ mapper
  let cfg := { cfg with
    current_destination := some device_mapper_path
    current_source_path := some odev
    current_total_copy_size := some (dsize - luks_header_size)
    from_end := some true
    phase := some Phase.CopyData }
  let st := commitOngoing cfg st
  let res := doCopy env cfg st
  let code := res.1
  let cfg := res.2.1
  let st := res.2.2
  if code ≠ process_success then
    (PyRes.ret (some Phase.CopyData), st)
  else
    let cfg := { cfg with phase := some Phase.RecoverHeader }
    let st := commitOngoing cfg st
    noSepRecoverHeader env odev mapper dsize cfg st

/-- `EncryptDevice` phase of the no-separate-header machine
(source lines 911-929). -/
def noSepEncryptDevice (env : Env) (passphrase_file odev mapper : String)
    (dsize : Int) (cfg : OngoingItemConfig) (st : MachineState) :
    PyRes (Option Phase) × MachineState :=
  let st := emit (Event.encryptDiskCall odev mapper none) st
  if env.encrypt_disk odev passphrase_file mapper none ≠ process_success then
    (PyRes.ret (some Phase.EncryptDevice), st)
  else
    let cfg := { cfg with current_slice_index := some 0, phase := some Phase.CopyData }
    let st := commitOngoing cfg st
    noSepCopyData env odev mapper dsize cfg st

/-- `BackupHeader` phase of the no-separate-header machine
(source lines 865-909): ext-family allow-list check, shrink preflight
(each clearing the whole config on failure), then the header-slice copy. -/
def noSepBackupHeader (env : Env) (passphrase_file odev mapper : String)
    (dsize : Int) (cfg : OngoingItemConfig) (st : MachineState) :
    PyRes (Option Phase) × MachineState :=
  match cfg.file_system with
  | none => (PyRes.exn, st)
  | some fs =>
    if (["ext2", "ext3", "ext4"].contains (strLower fs)) = false then
      (PyRes.ret (some Phase.BackupHeader), clearOngoingConfig st)
    else
      let size_shrink_to := (dsize - luks_header_size).fdiv sector_size
      if env.check_shrink_fs odev size_shrink_to ≠ process_success then
        (PyRes.ret (some Phase.BackupHeader), clearOngoingConfig st)
      else
        let cfg := { cfg with
          current_slice_index := some 0
          current_source_path := some odev
          current_destination := some copy_header_slice_file_path
          current_total_copy_size := some default_block_size
          from_end := some false
          header_slice_file_path := some copy_header_slice_file_path
          original_dev_path := some odev }
        let st := commitOngoing cfg st
        let res := doCopy env cfg st
        let code := res.1
        let cfg := res.2.1
        let st := res.2.2
        if code ≠ process_success then
          (PyRes.ret (some Phase.BackupHeader), st)
        else
          let cfg := { cfg with current_slice_index := some 0, phase := some Phase.EncryptDevice }
          let st := commitOngoing cfg st
          noSepEncryptDevice env passphrase_file odev mapper dsize cfg st

/-- Phase dispatch of the no-separate-header machine's while loop.  An
initial phase of `EncryptionDone` skips the loop and the source function
implicitly returns `None`; a foreign (decryption) or missing phase makes
the source's while loop spin forever. -/
def noSepDispatch (env : Env) (passphrase_file odev mapper : String)
    (dsize : Int) (ph : Option Phase) (cfg : OngoingItemConfig)
    (st : MachineState) : PyRes (Option Phase) × MachineState :=
  match ph with
  | some Phase.BackupHeader => noSepBackupHeader env passphrase_file odev mapper dsize cfg st
  | some Phase.EncryptDevice => noSepEncryptDevice env passphrase_file odev mapper dsize cfg st
  | some Phase.CopyData => noSepCopyData env odev mapper dsize cfg st
  | some Phase.RecoverHeader => noSepRecoverHeader env odev mapper dsize cfg st
  | some Phase.EncryptionDone => (PyRes.ret none, st)
  | _ => (PyRes.nonterm, st)

/-- The fresh OngoingItemConfig constructed by
`encrypt_inplace_without_separate_header_file` when no resume config is
supplied (source lines 832-848). -/
def freshNoSepConfig (env : Env) (device_item : DeviceItem) (uuidIdx : Nat) :
    OngoingItemConfig :=
  let odev :=
    if env.path_exists ("/dev/" ++ device_item.name) then "/dev/" ++ device_item.name
    else dev_mapper_root ++ device_item.name
  { current_block_size := some default_block_size
    current_slice_index := some 0
    device_size := some device_item.size
    file_system := device_item.file_system
    luks_header_file_path := none
    mapper_name := some (env.new_uuid uuidIdx)
    mount_point := device_item.mount_point
    original_dev_name_path := some odev
    original_dev_path := some odev
    phase := some Phase.BackupHeader }

/-- `encrypt_inplace_without_separate_header_file` (source lines 820-1018).
With `ongoing_item_config = none` a fresh config is constructed and
committed; otherwise this is a resume and the passed config is used
(`device_item` is then unused, matching the source's `device_item=None`
resume calls). -/
def encrypt_inplace_without_separate_header_file (env : Env)
    (passphrase_file : String) (device_item : DeviceItem)
    (ongoing_item_config : Option OngoingItemConfig) (st : MachineState) :
    PyRes (Option Phase) × MachineState :=
  let entry : OngoingItemConfig × MachineState :=
    match ongoing_item_config with
    | none =>
      let cfg := freshNoSepConfig env device_item st.uuidCounter
      (cfg, commitFreshOngoing cfg { st with uuidCounter := st.uuidCounter + 1 })
    | some c => (c, st)
  let cfg := entry.1
  let st := entry.2
  match cfg.device_size with
  | none => (PyRes.exn, st)
  | some dsize =>
    match cfg.original_dev_path, cfg.mapper_name with
    | some odev, some mapper =>
      noSepDispatch env passphrase_file odev mapper dsize cfg.phase cfg st
    | _, _ => (PyRes.exn, st)

/-!
## Encrypt in place, separate header file
(`encrypt_inplace_with_separate_header_file`, handle.py lines 1020-1168)
States `EncryptDevice → CopyData → Done`.
-/

/-- Tail of the separate-header `CopyData` phase after the luks-open step
(source lines 1108-1166): normalise the slice cursor, commit the copy
descriptor over the whole device from the end, copy, then on success
register the CryptItem, mount, fix fstab, mark `Done` and clear. -/
def sepCopyDataTail (env : Env) (mapper odev : String) (header : Option String)
    (cfg : OngoingItemConfig) (st : MachineState) :
    PyRes (Option Phase) × MachineState :=
  let device_mapper_path := dev_mapper_root ++ mapper
  let cfg :=
    match cfg.current_slice_index with
    | none => { cfg with current_slice_index := some 0 }
    | some _ => cfg
  let cfg := { cfg with
    current_source_path := some odev
    current_destination := some device_mapper_path
    current_total_copy_size := cfg.device_size
    from_end := some true }
  let st := commitOngoing cfg st
  let res := doCopy env cfg st
  let code := res.1
  let cfg := res.2.1
  let st := res.2.2
  if code ≠ common_success then
    (PyRes.ret (some Phase.CopyData), st)
  else
    match cfg.original_dev_name_path with
    | none => (PyRes.exn, st)
    | some onp =>
      let ci_mount : String :=
        match cfg.mount_point with
        | none => "None"
        | some mp => if mp = "" then "None" else mp
      let ci : CryptItem := {
        mapper_name := mapper
        dev_path := env.query_dev_id_path onp
        luks_header_path := header
        file_system := cfg.file_system
        uses_cleartext_key := false
        current_luks_slot := 0
        mount_point := ci_mount }
      let st :=
        if ci_mount ≠ "None" then
          let st := emit (Event.mountCall device_mapper_path ci_mount) st
          (addCryptItem ci (some (backupFolder ci_mount)) st).2
        else
          (addCryptItem ci none st).2
      let st :=
        match cfg.mount_point with
        | some mp => if mp ≠ "" then emit (Event.removeMountInfoCall mp) st else st
        | none => st
      let cfg := { cfg with phase := some Phase.EncryptionDone }
      let st := commitOngoing cfg st
      let st := clearOngoingConfig st
      (PyRes.ret (some Phase.EncryptionDone), st)

/-- `CopyData` phase of the separate-header machine (source lines
1085-1166): luks-open the mapper first, skipped when the mapper device
path already exists. -/
def sepCopyData (env : Env) (_passphrase_file : String)
    (cfg : OngoingItemConfig) (st : MachineState) :
    PyRes (Option Phase) × MachineState :=
  match cfg.mapper_name, cfg.original_dev_path with
  | some mapper, some odev =>
    let header := cfg.luks_header_file_path
    let device_mapper_path := dev_mapper_root ++ mapper
    if env.path_exists device_mapper_path = false then
      let st := emit (Event.luksOpenCall odev mapper) st
      if env.luks_open odev mapper header ≠ process_success then
        (PyRes.ret (some Phase.CopyData), st)
      else
        sepCopyDataTail env mapper odev header cfg st
    else
      sepCopyDataTail env mapper odev header cfg st
  | _, _ => (PyRes.exn, st)

/-- `EncryptDevice` phase of the separate-header machine (source lines
1061-1083). -/
def sepEncryptDevice (env : Env) (passphrase_file : String)
    (cfg : OngoingItemConfig) (st : MachineState) :
    PyRes (Option Phase) × MachineState :=
  match cfg.mapper_name, cfg.original_dev_path with
  | some mapper, some odev =>
    let header := cfg.luks_header_file_path
    let st := emit (Event.encryptDiskCall odev mapper header) st
    if env.encrypt_disk odev passphrase_file mapper header ≠ process_success then
      (PyRes.ret (some Phase.EncryptDevice), st)
    else
      let cfg := { cfg with phase := some Phase.CopyData }
      let st := commitOngoing cfg st
      sepCopyData env passphrase_file cfg st
  | _, _ => (PyRes.exn, st)

/-- Phase dispatch of the separate-header machine's while loop. -/
def sepDispatch (env : Env) (passphrase_file : String) (ph : Option Phase)
    (cfg : OngoingItemConfig) (st : MachineState) :
    PyRes (Option Phase) × MachineState :=
  match ph with
  | some Phase.EncryptDevice => sepEncryptDevice env passphrase_file cfg st
  | some Phase.CopyData => sepCopyData env passphrase_file cfg st
  | some Phase.EncryptionDone => (PyRes.ret none, st)
  | _ => (PyRes.nonterm, st)

/-- `encrypt_inplace_with_separate_header_file` (source lines 1020-1168).
Fresh entry allocates the header file before committing anything; a
failed allocation returns phase `EncryptDevice` with nothing committed. -/
def encrypt_inplace_with_separate_header_file (env : Env)
    (passphrase_file : String) (device_item : DeviceItem)
    (ongoing_item_config : Option OngoingItemConfig) (st : MachineState) :
    PyRes (Option Phase) × MachineState :=
  match ongoing_item_config with
  | none =>
    let mapper := env.new_uuid st.uuidCounter
    let st := { st with uuidCounter := st.uuidCounter + 1 }
    let onp :=
      if env.path_exists ("/dev/" ++ device_item.name) then "/dev/" ++ device_item.name
      else dev_mapper_root ++ device_item.name
    let cfg : OngoingItemConfig := {
      current_block_size := some default_block_size
      current_slice_index := some 0
      device_size := some device_item.size
      file_system := device_item.file_system
      mapper_name := some mapper
      mount_point := device_item.mount_point
      original_dev_name_path := some onp
      original_dev_path := some ("/dev/disk/by-uuid/" ++ device_item.uuid) }
    match env.create_luks_header mapper with
    | none => (PyRes.ret (some Phase.EncryptDevice), st)
    | some hpath =>
      let cfg := { cfg with
        luks_header_file_path := some hpath
        phase := some Phase.EncryptDevice }
      let st := commitFreshOngoing cfg st
      sepDispatch env passphrase_file (some Phase.EncryptDevice) cfg st
  | some cfg =>
    sepDispatch env passphrase_file cfg.phase cfg st

/-!
## Decrypt in place (`decrypt_inplace_copy_data` and its wrappers,
handle.py lines 1170-1283)
-/

/-- `decrypt_inplace_copy_data` (source lines 1170-1223).  Single
`CopyData → Done` phase; the fresh descriptor copies the whole mapper
device back onto the raw device path, from the end.  The
`raw_device_item` source parameter is unused by the source body and is
omitted. -/
def decrypt_inplace_copy_data (env : Env) (crypt_item : CryptItem)
    (mapper_device_item : DeviceItem)
    (ongoing_item_config : Option OngoingItemConfig) (st : MachineState) :
    PyRes (Option Phase) × MachineState :=
  let entry : OngoingItemConfig × MachineState :=
    match ongoing_item_config with
    | some c => (c, st)
    | none =>
      let cfg : OngoingItemConfig := {
        current_destination := some crypt_item.dev_path
        current_source_path := some (dev_mapper_root ++ crypt_item.mapper_name)
        current_total_copy_size := some mapper_device_item.size
        from_end := some true
        phase := some Phase.DecryptionCopyData
        current_slice_index := some 0
        current_block_size := some default_block_size
        mount_point := some crypt_item.mount_point }
      (cfg, commitFreshOngoing cfg st)
  let cfg := entry.1
  let st := entry.2
  match cfg.phase with
  | some Phase.DecryptionCopyData =>
    let res := doCopy env cfg st
    let code := res.1
    let cfg := res.2.1
    let st := res.2.2
    if code = process_success then
      let st :=
        match cfg.mount_point with
        | some mp =>
          if mp ≠ "" ∧ mp ≠ "None" then emit (Event.restoreMountInfoCall mp) st else st
        | none => st
      let cfg := { cfg with phase := some Phase.DecryptionDone }
      let st := commitOngoing cfg st
      (PyRes.ret (some Phase.DecryptionDone), clearOngoingConfig st)
    else
      (PyRes.ret (some Phase.DecryptionCopyData), st)
  | some Phase.DecryptionDone =>
    (PyRes.ret (some Phase.DecryptionDone), clearOngoingConfig st)
  | _ => (PyRes.nonterm, st)

/-- `decrypt_inplace_without_separate_header_file` (source lines
1225-1256): reads the LUKS payload offset from the device's metadata
(`luksDump`; an unparsable dump raises), requires raw size minus mapper
size to equal exactly that header size, and returns `None` on mismatch
without copying and without touching any state. -/
def decrypt_inplace_without_separate_header_file (env : Env)
    (crypt_item : CryptItem) (raw_device_item mapper_device_item : DeviceItem)
    (ongoing_item_config : Option OngoingItemConfig) (st : MachineState) :
    PyRes (Option Phase) × MachineState :=
  match env.luksDumpPayloadSectors crypt_item.dev_path with
  | none => (PyRes.exn, st)
  | some payloadSectors =>
    let luksHeaderSize := payloadSectors * sector_size
    if raw_device_item.size - mapper_device_item.size ≠ luksHeaderSize then
      (PyRes.ret none, st)
    else
      decrypt_inplace_copy_data env crypt_item mapper_device_item
        ongoing_item_config st

/-- `decrypt_inplace_with_separate_header_file` (source lines 1258-1283):
raw and mapper sizes must be equal, else return `None` without copying. -/
def decrypt_inplace_with_separate_header_file (env : Env)
    (crypt_item : CryptItem) (raw_device_item mapper_device_item : DeviceItem)
    (ongoing_item_config : Option OngoingItemConfig) (st : MachineState) :
    PyRes (Option Phase) × MachineState :=
  if raw_device_item.size ≠ mapper_device_item.size then
    (PyRes.ret none, st)
  else
    decrypt_inplace_copy_data env crypt_item mapper_device_item
      ongoing_item_config st

/-!
## Bulk decryption (`disable_encryption_all_in_place`, handle.py lines
1419-1490) and the selection policy / bulk encryption drivers.
-/

/-- The loop body of `disable_encryption_all_in_place` over the snapshot
list of crypt items (source lines 1437-1490).  Any crypt item whose raw
or mapper device is missing, or whose decryption does not reach
`DecryptionPhaseDone`, is returned as the failed item and the loop stops. -/
def disableAllLoop (env : Env) (device_items : List DeviceItem) :
    List CryptItem → MachineState → PyRes (Option CryptItem) × MachineState
  | [], st => (PyRes.ret none, st)
  | ci :: rest, st =>
    match device_items.find?
        (fun d => env.realpath ("/dev/" ++ d.name) = env.realpath ci.dev_path) with
    | none => (PyRes.ret (some ci), st)
    | some raw =>
      match device_items.find? (fun d => ci.mapper_name = d.name) with
      | none => (PyRes.ret (some ci), st)
      | some mapperD =>
        match
          if ci.luks_header_path.isSome then
            decrypt_inplace_with_separate_header_file env ci raw mapperD none st
          else
            decrypt_inplace_without_separate_header_file env ci raw mapperD none st
        with
        | (PyRes.ret ph, st) =>
          if ph = some Phase.DecryptionDone then
            let st := emit (Event.luksCloseCall ci.mapper_name) st
            let st := removeCryptItem ci st
            disableAllLoop env device_items rest st
          else
            (PyRes.ret (some ci), st)
        | (PyRes.exn, st) => (PyRes.exn, st)
        | (PyRes.exited b, st) => (PyRes.exited b, st)
        | (PyRes.nonterm, st) => (PyRes.nonterm, st)

/-- `disable_encryption_all_in_place` (source lines 1419-1490): iterate
the registry snapshot, decrypting strictly sequentially; `ret none` on
success, otherwise the crypt item that failed. -/
def disable_encryption_all_in_place (env : Env) (st : MachineState) :
    PyRes (Option CryptItem) × MachineState :=
  disableAllLoop env env.device_items st.cryptItems st

/-- The accumulator loop of `find_all_devices_to_encrypt` (source lines
1344-1362): duplicate-name check against already-selected items first,
then the in-place skip filter, then the passphrase device, then - for the
format-all command only - the empty-mount-point and missing-udev-alias
gates. -/
def findAllGo (env : Env) (command : String) (volume_type : Option String) :
    List DeviceItem → List DeviceItem → List DeviceItem
  | [], acc => acc
  | d :: rest, acc =>
    if acc.any (fun di => di.name = d.name) then
      findAllGo env command volume_type rest acc
    else if env.should_skip_for_inplace d volume_type then
      findAllGo env command volume_type rest acc
    else if d.name = env.passphrase_device then
      findAllGo env command volume_type rest acc
    else if command = EnableEncryptionFormatAll ∧
        (d.mount_point = none ∨ d.mount_point = some "") then
      findAllGo env command volume_type rest acc
    else if command = EnableEncryptionFormatAll ∧
        (env.udev_table ("/dev/" ++ d.name)).isNone then
      findAllGo env command volume_type rest acc
    else
      findAllGo env command volume_type rest (acc ++ [d])

/-- `find_all_devices_to_encrypt` (source lines 1340-1364). -/
def find_all_devices_to_encrypt (env : Env) (marker : EncryptionMarkConfig) :
    List DeviceItem :=
  findAllGo env marker.command marker.volume_type env.device_items []

/-- `stamp_disks_with_settings` (source lines 170-206).  The wire-server
posting is external; on success the resolved encryption config is
committed with the secret stamped at the current sequence number, on
failure the raised exception propagates. -/
def stamp_disks_with_settings (env : Env) (st : MachineState) :
    PyRes Unit × MachineState :=
  if env.stamp_ok then
    let ec : EncryptionConfig :=
      { volume_type := env.param_volume_type, secret_seq_num := some env.current_seq }
    (PyRes.ret (), { st with encryptionConfig := some ec })
  else
    (PyRes.exn, st)

/-- The encryption part of one iteration of the
`enable_encryption_all_in_place` loop (source lines 1396-1415): run the
no-separate-header machine fresh on the device; `none` in the first
component means "continue with the next device", `some r` means the loop
returns `r` at once. -/
def encryptAllInPlaceRun (env : Env) (passphrase_file : String)
    (d : DeviceItem) (st : MachineState) :
    Option (PyRes (Option DeviceItem)) × MachineState :=
  match encrypt_inplace_without_separate_header_file env passphrase_file d none st with
  | (PyRes.ret ph, st) =>
    if ph = some Phase.EncryptionDone then (none, st)
    else (some (PyRes.ret (some d)), st)
  | (PyRes.exn, st) => (some PyRes.exn, st)
  | (PyRes.exited b, st) => (some (PyRes.exited b), st)
  | (PyRes.nonterm, st) => (some PyRes.nonterm, st)

/-- One iteration of the `enable_encryption_all_in_place` loop (source
lines 1390-1415): unmount a mounted device first; a failed unmount is
only logged and the device is skipped (first component `none`, device
neither encrypted nor reported). -/
def encryptAllInPlaceStep (env : Env) (passphrase_file : String)
    (d : DeviceItem) (st : MachineState) :
    Option (PyRes (Option DeviceItem)) × MachineState :=
  match d.mount_point with
  | some mp =>
    if mp ≠ "" then
      let st := emit (Event.umountCall mp) st
      if env.umount mp ≠ common_success then (none, st)
      else encryptAllInPlaceRun env passphrase_file d st
    else encryptAllInPlaceRun env passphrase_file d st
  | none => encryptAllInPlaceRun env passphrase_file d st

/-- The per-device loop of `enable_encryption_all_in_place` (source lines
1390-1416). -/
def encryptAllInPlaceLoop (env : Env) (passphrase_file : String) :
    List DeviceItem → MachineState → PyRes (Option DeviceItem) × MachineState
  | [], st => (PyRes.ret none, st)
  | d :: rest, st =>
    match encryptAllInPlaceStep env passphrase_file d st with
    | (none, st) => encryptAllInPlaceLoop env passphrase_file rest st
    | (some r, st) => (r, st)

/-- `enable_encryption_all_in_place` (source lines 1367-1416): select the
devices, stamp the settings if anything is to be stamped, then encrypt
each device in place sequentially. -/
def enable_encryption_all_in_place (env : Env) (passphrase_file : String)
    (encryption_marker : EncryptionMarkConfig)
    (os_items_to_stamp : List DeviceItem) (st : MachineState) :
    PyRes (Option DeviceItem) × MachineState :=
  let device_items_to_encrypt := find_all_devices_to_encrypt env encryption_marker
  let stampStep : PyRes Unit × MachineState :=
    if device_items_to_encrypt.length + os_items_to_stamp.length > 0 then
      stamp_disks_with_settings env st
    else
      (PyRes.ret (), st)
  match stampStep with
  | (PyRes.ret _, st) => encryptAllInPlaceLoop env passphrase_file device_items_to_encrypt st
  | (PyRes.exn, st) => (PyRes.exn, st)
  | (PyRes.exited b, st) => (PyRes.exited b, st)
  | (PyRes.nonterm, st) => (PyRes.nonterm, st)

/-!
## Encrypt-and-format (`enable_encryption_format` and drivers,
handle.py lines 720-818 and 1286-1337)
-/

/-- The selection pass of `enable_encryption_format` (source lines
728-748): resolve each query element to a device path (scsi id lookup,
overridden by an explicit `dev_path`; neither present raises), keep only
paths resolving to exactly one device item whose filesystem is empty
(unless `force`). -/
def formatSelect (env : Env) (force : Bool) :
    List FormatItem → PyRes (List (DeviceItem × FormatItem × String))
  | [] => PyRes.ret []
  | it :: rest =>
    let dev_path_in_query :=
      if it.dev_path ≠ "" then it.dev_path
      else if it.scsi ≠ "" then env.query_scsi it.scsi
      else ""
    if dev_path_in_query = "" then PyRes.exn
    else
      match env.device_items_at dev_path_in_query with
      | [d] =>
        if d.file_system = none ∨ d.file_system = some "" ∨ force then
          match formatSelect env force rest with
          | PyRes.ret l => PyRes.ret ((d, it, dev_path_in_query) :: l)
          | PyRes.exn => PyRes.exn
          | PyRes.exited b => PyRes.exited b
          | PyRes.nonterm => PyRes.nonterm
        else
          formatSelect env force rest
      | _ => formatSelect env force rest

/-- The formatting loop of `enable_encryption_format` (source lines
757-818): unmount, encrypt with a fresh mapper name and no header file,
format, mount at the query-derived mount point, fix fstab, register. -/
def formatLoop (env : Env) (passphrase : String) :
    List (DeviceItem × FormatItem × String) → MachineState →
    PyRes (Option DeviceItem) × MachineState
  | [], st => (PyRes.ret none, st)
  | (d, it, dev_path_in_query) :: rest, st =>
    let st :=
      match d.mount_point with
      | some mp => if mp ≠ "" then emit (Event.umountCall mp) st else st
      | none => st
    let mapper := env.new_uuid st.uuidCounter
    let st := { st with uuidCounter := st.uuidCounter + 1 }
    let encrypted_device_path := dev_mapper_root ++ mapper
    let st := emit (Event.encryptDiskCall dev_path_in_query mapper none) st
    if env.encrypt_disk dev_path_in_query passphrase mapper none = process_success then
      let fs := if it.file_system ≠ "" then it.file_system else default_file_system
      let st := emit (Event.formatDiskCall encrypted_device_path fs) st
      if env.format_disk encrypted_device_path fs ≠ process_success then
        (PyRes.ret (some d), st)
      else
        let mp :=
          if it.full_mount_point ≠ "" then it.full_mount_point
          else if it.name ≠ "" then "/mnt/" ++ it.name
          else "/mnt/" ++ mapper
        let ci : CryptItem := {
          mapper_name := mapper
          dev_path := dev_path_in_query
          luks_header_path := none
          file_system := some fs
          uses_cleartext_key := false
          current_luks_slot := 0
          mount_point := mp }
        let st := emit (Event.mountCall encrypted_device_path mp) st
        let st := emit (Event.removeMountInfoCall mp) st
        let st := (addCryptItem ci (some (backupFolder mp)) st).2
        formatLoop env passphrase rest st
    else
      (PyRes.ret (some d), st)

/-- `enable_encryption_format` (source lines 720-818). -/
def enable_encryption_format (env : Env) (passphrase : String)
    (encryption_format_items : List FormatItem) (force : Bool)
    (os_items_to_stamp : List DeviceItem) (st : MachineState) :
    PyRes (Option DeviceItem) × MachineState :=
  match formatSelect env force encryption_format_items with
  | PyRes.ret sel =>
    let stampStep : PyRes Unit × MachineState :=
      if sel.length + os_items_to_stamp.length > 0 then
        stamp_disks_with_settings env st
      else
        (PyRes.ret (), st)
    match stampStep with
    | (PyRes.ret _, st) => formatLoop env passphrase sel st
    | (PyRes.exn, st) => (PyRes.exn, st)
    | (PyRes.exited b, st) => (PyRes.exited b, st)
    | (PyRes.nonterm, st) => (PyRes.nonterm, st)
  | PyRes.exn => (PyRes.exn, st)
  | PyRes.exited b => (PyRes.exited b, st)
  | PyRes.nonterm => (PyRes.nonterm, st)

/-- `str(x)` over a `None`-able Python string. -/
def optStr : Option String → String
  | none => "None"
  | some s => s

/-- `device_item_to_encryption_format_item` inside
`encrypt_format_device_items` (source lines 1319-1333): prefer the azure
udev alias for the device path. -/
def device_item_to_encryption_format_item (env : Env) (d : DeviceItem) :
    FormatItem :=
  let dev_path := "/dev/" ++ d.name
  { scsi := ""
    name := ""
    dev_path :=
      match env.udev_table dev_path with
      | some u => u
      | none => dev_path
    full_mount_point := optStr d.mount_point
    file_system := optStr d.file_system }

/-- `encrypt_format_device_items` (source lines 1305-1337).  The source
accepts `os_items_to_stamp` but does not forward it to
`enable_encryption_format`, which therefore uses its empty default. -/
def encrypt_format_device_items (env : Env) (passphrase : String)
    (device_items : List DeviceItem) (force : Bool)
    (_os_items_to_stamp : List DeviceItem) (st : MachineState) :
    PyRes (Option DeviceItem) × MachineState :=
  enable_encryption_format env passphrase
    (device_items.map (device_item_to_encryption_format_item env)) force [] st

/-- `enable_encryption_all_format` (source lines 1286-1302). -/
def enable_encryption_all_format (env : Env) (passphrase_file : String)
    (encryption_marker : EncryptionMarkConfig)
    (os_items_to_stamp : List DeviceItem) (st : MachineState) :
    PyRes (Option DeviceItem) × MachineState :=
  encrypt_format_device_items env passphrase_file
    (find_all_devices_to_encrypt env encryption_marker) true os_items_to_stamp st

/-!
## Daemon-level dispatch (handle.py lines 1492-1889) and the
`disable_encryption` command handler (lines 76-167).
-/

/-- Modelled from the spec: `CommonVariables.VolumeTypeData`. -/
def VolumeTypeData : String := "Data"

/-- Modelled from the spec: `CommonVariables.VolumeTypeOS`. -/
def VolumeTypeOS : String := "OS"

/-- Modelled from the spec: `CommonVariables.VolumeTypeAll`. -/
def VolumeTypeAll : String := "All"

/-- Placeholder device item for the source's `device_item=None` resume
calls; the machines never read it when a resume config is supplied. -/
def dummyDeviceItem : DeviceItem :=
  { name := "", size := 0, file_system := none, mount_point := none, uuid := "" }

/-- `are_disks_stamped_with_current_config` (source lines 208-209):
the stored secret sequence number equals the current operation's. -/
def are_disks_stamped (env : Env) (st : MachineState) : Bool :=
  match st.encryptionConfig with
  | some ec => ec.secret_seq_num = some env.current_seq
  | none => false

/-- The unmount preceding a resume in `daemon_encrypt_data_volumes`
(source lines 1688-1693): unmount the checkpoint's mount point when it is
set and non-empty; the result code is only logged. -/
def resumeUmountState (cfg : OngoingItemConfig) (st : MachineState) :
    MachineState :=
  match cfg.mount_point with
  | some mp => if mp ≠ "" then emit (Event.umountCall mp) st else st
  | none => st

/-- The machine re-entry of a resume in `daemon_encrypt_data_volumes`
(source lines 1694-1708), selected by the checkpoint's header path. -/
def resumeMachineCall (env : Env) (bek_passphrase_file : String)
    (cfg : OngoingItemConfig) (st : MachineState) :
    PyRes (Option Phase) × MachineState :=
  if none_or_empty cfg.luks_header_file_path then
    encrypt_inplace_without_separate_header_file env bek_passphrase_file
      dummyDeviceItem (some cfg) st
  else
    encrypt_inplace_with_separate_header_file env bek_passphrase_file
      dummyDeviceItem (some cfg) st

/-- `daemon_encrypt_data_volumes` (source lines 1667-1770).  If an
OngoingItemConfig exists this is a resume: unmount its mount point,
re-enter the machine selected by the header path, raise unless it
reaches `Done`, then clear and return `False` (so the driver loop calls
again); otherwise dispatch on the encryption marker's command, raising
on a failed item, and return `True`.  A format command whose stored disk
format query does not parse clears the encryption marker and re-raises. -/
def daemon_encrypt_data_volumes (env : Env) (bek_passphrase_file : String)
    (os_items_to_stamp : List DeviceItem) (st : MachineState) :
    PyRes Bool × MachineState :=
  match st.ongoing with
  | some cfg =>
    match resumeMachineCall env bek_passphrase_file cfg (resumeUmountState cfg st) with
    | (PyRes.ret ph, st) =>
      if ph ≠ some Phase.EncryptionDone then (PyRes.exn, st)
      else (PyRes.ret false, clearOngoingConfig st)
    | (PyRes.exn, st) => (PyRes.exn, st)
    | (PyRes.exited b, st) => (PyRes.exited b, st)
    | (PyRes.nonterm, st) => (PyRes.nonterm, st)
  | none =>
    match st.encryptionMark with
    | none => (PyRes.ret true, st)
    | some mark =>
      if mark.command = EnableEncryption then
        match enable_encryption_all_in_place env bek_passphrase_file mark
            os_items_to_stamp st with
        | (PyRes.ret (some _), st) => (PyRes.exn, st)
        | (PyRes.ret none, st) => (PyRes.ret true, st)
        | (PyRes.exn, st) => (PyRes.exn, st)
        | (PyRes.exited b, st) => (PyRes.exited b, st)
        | (PyRes.nonterm, st) => (PyRes.nonterm, st)
      else if mark.command = EnableEncryptionFormat then
        match env.parse_disk_format_query mark.diskFormatQuery with
        | none => (PyRes.exn, { st with encryptionMark := none })
        | some encryption_format_items =>
          match enable_encryption_format env bek_passphrase_file
              encryption_format_items false os_items_to_stamp st with
          | (PyRes.ret (some _), st) => (PyRes.exn, st)
          | (PyRes.ret none, st) => (PyRes.ret true, st)
          | (PyRes.exn, st) => (PyRes.exn, st)
          | (PyRes.exited b, st) => (PyRes.exited b, st)
          | (PyRes.nonterm, st) => (PyRes.nonterm, st)
      else if mark.command = EnableEncryptionFormatAll then
        match enable_encryption_all_format env bek_passphrase_file mark
            os_items_to_stamp st with
        | (PyRes.ret (some _), st) => (PyRes.exn, st)
        | (PyRes.ret none, st) => (PyRes.ret true, st)
        | (PyRes.exn, st) => (PyRes.exn, st)
        | (PyRes.exited b, st) => (PyRes.exited b, st)
        | (PyRes.nonterm, st) => (PyRes.nonterm, st)
      else
        (PyRes.exn, st)

/-- The `while not daemon_encrypt_data_volumes(...)` driver loop inside
`daemon_encrypt` (source lines 1538-1544), with fuel: a `False` result
only arises from the resume branch, which clears the OngoingItemConfig,
so the loop runs at most twice; the fuel only bounds the embedding. -/
def dataVolumesLoop (env : Env) (bek_passphrase_file : String)
    (os_items_to_stamp : List DeviceItem) :
    Nat → MachineState → PyRes Bool × MachineState
  | 0, st => (PyRes.nonterm, st)
  | n + 1, st =>
    match daemon_encrypt_data_volumes env bek_passphrase_file os_items_to_stamp st with
    | (PyRes.ret true, st) => (PyRes.ret true, st)
    | (PyRes.ret false, st) => dataVolumesLoop env bek_passphrase_file os_items_to_stamp n st
    | (PyRes.exn, st) => (PyRes.exn, st)
    | (PyRes.exited b, st) => (PyRes.exited b, st)
    | (PyRes.nonterm, st) => (PyRes.nonterm, st)

/-- The OS-volume tail of `daemon_encrypt` (source lines 1560-1664).
The per-distro OS encryption state machines live in external `oscrypto`
modules; their observable behaviour (supported distro, initial state,
whether `start_encryption` raises, final state) comes from the oracle.
An unsupported distro or any raise inside the try block becomes
`hutil.do_exit`; on a completed run the encryption marker is cleared by
`daemon_encrypt` itself. -/
def daemonEncryptOs (env : Env) (st : MachineState) :
    PyRes Unit × MachineState :=
  if env.os_supported = false then (PyRes.exited false, st)
  else
    match
      if env.os_state_initial = "uninitialized" ∧ are_disks_stamped env st = false then
        stamp_disks_with_settings env st
      else
        (PyRes.ret (), st)
    with
    | (PyRes.ret _, st) =>
      if env.os_run_ok ∧ env.os_final_state = "completed" then
        (PyRes.ret (), { st with encryptionMark := none })
      else
        (PyRes.exited false, st)
    | (PyRes.exn, st) => (PyRes.exited false, st)
    | (PyRes.exited b, st) => (PyRes.exited b, st)
    | (PyRes.nonterm, st) => (PyRes.nonterm, st)

/-- `daemon_encrypt` (source lines 1492-1664): find the BEK passphrase
(exit if absent), read the volume type from the encryption config, run
the data-volume loop for Data/All scope (exceptions there become
`do_exit`), then the OS-volume machine for OS/All scope. -/
def daemon_encrypt (env : Env) (st : MachineState) :
    PyRes Unit × MachineState :=
  let bek? : Option String :=
    match st.encryptionConfig with
    | some _ => env.get_bek
    | none => none
  match bek? with
  | none => (PyRes.exited false, st)
  | some bek =>
    match st.encryptionConfig with
    | none => (PyRes.exn, st)
    | some ec =>
      match ec.volume_type with
      | none => (PyRes.exn, st)
      | some vt0 =>
        let vt := strLower vt0
        let is_not_in_stripped_os := env.oldroot_code ≠ 0
        let os_items_to_stamp :=
          if (vt = strLower VolumeTypeAll ∨ vt = strLower VolumeTypeOS) ∧
              are_disks_stamped env st = false ∧ is_not_in_stripped_os then
            env.device_items.filter (fun d => d.mount_point = some "/")
          else []
        match
          if (vt = strLower VolumeTypeData ∨ vt = strLower VolumeTypeAll) ∧
              is_not_in_stripped_os then
            match dataVolumesLoop env bek os_items_to_stamp 4 st with
            | (PyRes.ret _, st) => (PyRes.ret (), st)
            | (PyRes.exn, st) => (PyRes.exited false, st)
            | (PyRes.exited b, st) => (PyRes.exited b, st)
            | (PyRes.nonterm, st) => (PyRes.nonterm, st)
          else (PyRes.ret (), st)
        with
        | (PyRes.ret _, st) =>
          if vt = strLower VolumeTypeOS ∨ vt = strLower VolumeTypeAll then
            daemonEncryptOs env st
          else (PyRes.ret (), st)
        | (PyRes.exn, st) => (PyRes.exn, st)
        | (PyRes.exited b, st) => (PyRes.exited b, st)
        | (PyRes.nonterm, st) => (PyRes.nonterm, st)

/-- `daemon_decrypt` (source lines 1772-1826): no decryption marker means
plain return; an existing OngoingItemConfig is only logged and the
function returns; otherwise run `disable_encryption_all_in_place`: a
failed item exits with error status, success clears the encryption
config and then the decryption marker and exits with success status. -/
def daemon_decrypt (env : Env) (st : MachineState) :
    PyRes Unit × MachineState :=
  match st.decryptionMark with
  | none => (PyRes.ret (), st)
  | some dm =>
    match st.ongoing with
    | some _ => (PyRes.ret (), st)
    | none =>
      if dm.command = DisableEncryption then
        match disable_encryption_all_in_place env st with
        | (PyRes.ret (some _), st) => (PyRes.exited false, st)
        | (PyRes.ret none, st) =>
          let st := { st with encryptionConfig := none }
          let st := { st with decryptionMark := none }
          (PyRes.exited true, st)
        | (PyRes.exn, st) => (PyRes.exn, st)
        | (PyRes.exited b, st) => (PyRes.exited b, st)
        | (PyRes.nonterm, st) => (PyRes.nonterm, st)
      else
        (PyRes.exn, st)

/-- `daemon` (source lines 1828-1889): take the advisory process lock
(returning untouched if already held), then branch on the decryption
marker.  Exceptions from either branch are caught and become `do_exit`
with error status; a normal `daemon_encrypt` return clears the
encryption marker.  The ghost counters `decPathRuns` / `encPathRuns` are
bumped exactly when the corresponding branch is entered. -/
def daemon (env : Env) (st : MachineState) : PyRes Unit × MachineState :=
  if env.lock_ok = false then (PyRes.ret (), st)
  else
    match st.decryptionMark with
    | some _ =>
      let st := { st with decPathRuns := st.decPathRuns + 1 }
      match daemon_decrypt env st with
      | (PyRes.ret _, st) => (PyRes.ret (), st)
      | (PyRes.exn, st) => (PyRes.exited false, st)
      | (PyRes.exited b, st) => (PyRes.exited b, st)
      | (PyRes.nonterm, st) => (PyRes.nonterm, st)
    | none =>
      let st := { st with encPathRuns := st.encPathRuns + 1 }
      match daemon_encrypt env st with
      | (PyRes.ret _, st) => (PyRes.ret (), { st with encryptionMark := none })
      | (PyRes.exn, st) => (PyRes.exited false, st)
      | (PyRes.exited b, st) => (PyRes.exited b, st)
      | (PyRes.nonterm, st) => (PyRes.nonterm, st)

/-- The per-crypt-item loop of `disable_encryption` (source lines
122-145) followed by the decryption-marker commit (lines 143-145): each
registered item gets a cleartext key slot (a failed `luksAdd` raises,
aborting before the marker commit), has its device path stabilised when
it is a transient `/dev/sd` path, is marked `uses_cleartext_key` and is
updated in the registry; only after every item succeeded is the
decryption marker committed. -/
def disableEncryptionLoop (env : Env) (bek_passphrase_file : String)
    (command : String) (volume_type : Option String) :
    List CryptItem → MachineState → PyRes Unit × MachineState
  | [], st =>
    let dm : DecryptionMarkConfig := { command := command, volume_type := volume_type }
    (PyRes.ret (), { st with decryptionMark := some dm })
  | ci :: rest, st =>
    let code := env.luks_add_cleartext_key ci.dev_path ci.mapper_name ci.luks_header_path
    let st := emit (Event.luksAddCleartextKeyCall ci.dev_path ci.mapper_name code) st
    if code ≠ process_success then (PyRes.exn, st)
    else
      let dev_path' :=
        if "/dev/sd".isPrefixOf ci.dev_path then env.query_dev_id_path ci.dev_path
        else ci.dev_path
      let ci' := { ci with dev_path := dev_path', uses_cleartext_key := true }
      let st := updateCryptItem ci' st
      disableEncryptionLoop env bek_passphrase_file command volume_type rest st

/-- The core of `disable_encryption` (source lines 104-157), from the
OS-volume status check through the decryption-marker commit.  Everything
after the commit (clearing wire-server settings, blanking the BEK,
reboot) touches only external collaborators. -/
def disable_encryption_core (env : Env) (bek_passphrase_file : String)
    (command : String) (volume_type : Option String) (st : MachineState) :
    PyRes Unit × MachineState :=
  if env.encryption_status_os ≠ "NotEncrypted" then (PyRes.exn, st)
  else
    disableEncryptionLoop env bek_passphrase_file command volume_type st.cryptItems st

/-!
## Structural invariants of the embedding

`Preserves st st'` says a piece of embedded code only appends to the
trace and leaves the daemon's ghost path counters alone; every embedded
function except `daemon` itself satisfies it.  `FreshPreserved`
additionally pins the ghost counter of fresh OngoingItemConfig commits.
-/

/-- The state transform only appends trace events and leaves the ghost
path counters unchanged. -/
def Preserves (st st' : MachineState) : Prop :=
  (∃ Δ, st'.trace = st.trace ++ Δ) ∧
  st'.encPathRuns = st.encPathRuns ∧
  st'.decPathRuns = st.decPathRuns

/-- No fresh OngoingItemConfig was committed between the two states. -/
def FreshPreserved (st st' : MachineState) : Prop :=
  st'.freshOngoingCommits = st.freshOngoingCommits

theorem preserves_refl (st : MachineState) : Preserves st st :=
  ⟨⟨[], by simp⟩, rfl, rfl⟩

theorem preserves_trans {a b c : MachineState}
    (h1 : Preserves a b) (h2 : Preserves b c) : Preserves a c := by
  obtain ⟨⟨d1, hd1⟩, he1, hf1⟩ := h1
  obtain ⟨⟨d2, hd2⟩, he2, hf2⟩ := h2
  exact ⟨⟨d1 ++ d2, by simp [hd2, hd1]⟩, he2.trans he1, hf2.trans hf1⟩

theorem preserves_emit (e : Event) (st : MachineState) :
    Preserves st (emit e st) :=
  ⟨⟨[e], rfl⟩, rfl, rfl⟩

theorem preserves_commitOngoing (c : OngoingItemConfig) (st : MachineState) :
    Preserves st (commitOngoing c st) :=
  ⟨⟨[], by simp [commitOngoing]⟩, rfl, rfl⟩

theorem preserves_commitFresh (c : OngoingItemConfig) (st : MachineState) :
    Preserves st (commitFreshOngoing c st) :=
  ⟨⟨[], by simp [commitFreshOngoing]⟩, rfl, rfl⟩

theorem preserves_clear (st : MachineState) :
    Preserves st (clearOngoingConfig st) :=
  ⟨⟨[], by simp [clearOngoingConfig]⟩, rfl, rfl⟩

theorem preserves_doCopy (env : Env) (c : OngoingItemConfig) (st : MachineState) :
    Preserves st (doCopy env c st).2.2 :=
  ⟨⟨[Event.copyCall c], rfl⟩, rfl, rfl⟩

@[simp] theorem emit_trace (e : Event) (st : MachineState) :
    (emit e st).trace = st.trace ++ [e] := rfl

@[simp] theorem emit_encPathRuns (e : Event) (st : MachineState) :
    (emit e st).encPathRuns = st.encPathRuns := rfl

@[simp] theorem emit_decPathRuns (e : Event) (st : MachineState) :
    (emit e st).decPathRuns = st.decPathRuns := rfl

@[simp] theorem emit_freshOngoingCommits (e : Event) (st : MachineState) :
    (emit e st).freshOngoingCommits = st.freshOngoingCommits := rfl

@[simp] theorem emit_ongoing (e : Event) (st : MachineState) :
    (emit e st).ongoing = st.ongoing := rfl

@[simp] theorem emit_cryptItems (e : Event) (st : MachineState) :
    (emit e st).cryptItems = st.cryptItems := rfl

@[simp] theorem emit_encryptionMark (e : Event) (st : MachineState) :
    (emit e st).encryptionMark = st.encryptionMark := rfl

@[simp] theorem emit_decryptionMark (e : Event) (st : MachineState) :
    (emit e st).decryptionMark = st.decryptionMark := rfl

@[simp] theorem commitOngoing_trace (c : OngoingItemConfig) (st : MachineState) :
    (commitOngoing c st).trace = st.trace := rfl

@[simp] theorem commitOngoing_encPathRuns (c : OngoingItemConfig) (st : MachineState) :
    (commitOngoing c st).encPathRuns = st.encPathRuns := rfl

@[simp] theorem commitOngoing_decPathRuns (c : OngoingItemConfig) (st : MachineState) :
    (commitOngoing c st).decPathRuns = st.decPathRuns := rfl

@[simp] theorem commitOngoing_freshOngoingCommits (c : OngoingItemConfig)
    (st : MachineState) :
    (commitOngoing c st).freshOngoingCommits = st.freshOngoingCommits := rfl

@[simp] theorem commitOngoing_ongoing (c : OngoingItemConfig) (st : MachineState) :
    (commitOngoing c st).ongoing = some c := rfl

@[simp] theorem commitOngoing_cryptItems (c : OngoingItemConfig) (st : MachineState) :
    (commitOngoing c st).cryptItems = st.cryptItems := rfl

@[simp] theorem commitOngoing_encryptionMark (c : OngoingItemConfig) (st : MachineState) :
    (commitOngoing c st).encryptionMark = st.encryptionMark := rfl

@[simp] theorem commitOngoing_decryptionMark (c : OngoingItemConfig) (st : MachineState) :
    (commitOngoing c st).decryptionMark = st.decryptionMark := rfl

@[simp] theorem commitFresh_trace (c : OngoingItemConfig) (st : MachineState) :
    (commitFreshOngoing c st).trace = st.trace := rfl

@[simp] theorem commitFresh_encPathRuns (c : OngoingItemConfig) (st : MachineState) :
    (commitFreshOngoing c st).encPathRuns = st.encPathRuns := rfl

@[simp] theorem commitFresh_decPathRuns (c : OngoingItemConfig) (st : MachineState) :
    (commitFreshOngoing c st).decPathRuns = st.decPathRuns := rfl

@[simp] theorem commitFresh_freshOngoingCommits (c : OngoingItemConfig)
    (st : MachineState) :
    (commitFreshOngoing c st).freshOngoingCommits = st.freshOngoingCommits + 1 := rfl

@[simp] theorem commitFresh_ongoing (c : OngoingItemConfig) (st : MachineState) :
    (commitFreshOngoing c st).ongoing = some c := rfl

@[simp] theorem commitFresh_cryptItems (c : OngoingItemConfig) (st : MachineState) :
    (commitFreshOngoing c st).cryptItems = st.cryptItems := rfl

@[simp] theorem commitFresh_encryptionMark (c : OngoingItemConfig) (st : MachineState) :
    (commitFreshOngoing c st).encryptionMark = st.encryptionMark := rfl

@[simp] theorem commitFresh_decryptionMark (c : OngoingItemConfig) (st : MachineState) :
    (commitFreshOngoing c st).decryptionMark = st.decryptionMark := rfl

@[simp] theorem clearOngoing_trace (st : MachineState) :
    (clearOngoingConfig st).trace = st.trace := rfl

@[simp] theorem clearOngoing_encPathRuns (st : MachineState) :
    (clearOngoingConfig st).encPathRuns = st.encPathRuns := rfl

@[simp] theorem clearOngoing_decPathRuns (st : MachineState) :
    (clearOngoingConfig st).decPathRuns = st.decPathRuns := rfl

@[simp] theorem clearOngoing_freshOngoingCommits (st : MachineState) :
    (clearOngoingConfig st).freshOngoingCommits = st.freshOngoingCommits := rfl

@[simp] theorem clearOngoing_ongoing (st : MachineState) :
    (clearOngoingConfig st).ongoing = none := rfl

@[simp] theorem clearOngoing_cryptItems (st : MachineState) :
    (clearOngoingConfig st).cryptItems = st.cryptItems := rfl

@[simp] theorem clearOngoing_encryptionMark (st : MachineState) :
    (clearOngoingConfig st).encryptionMark = st.encryptionMark := rfl

@[simp] theorem clearOngoing_decryptionMark (st : MachineState) :
    (clearOngoingConfig st).decryptionMark = st.decryptionMark := rfl

@[simp] theorem doCopy_fst (env : Env) (c : OngoingItemConfig) (st : MachineState) :
    (doCopy env c st).1 = env.copyResult c := rfl

@[simp] theorem doCopy_cfg (env : Env) (c : OngoingItemConfig) (st : MachineState) :
    (doCopy env c st).2.1 = { c with current_slice_index := some (env.copyCursor c) } := rfl

@[simp] theorem doCopy_trace (env : Env) (c : OngoingItemConfig) (st : MachineState) :
    (doCopy env c st).2.2.trace = st.trace ++ [Event.copyCall c] := rfl

@[simp] theorem doCopy_encPathRuns (env : Env) (c : OngoingItemConfig) (st : MachineState) :
    (doCopy env c st).2.2.encPathRuns = st.encPathRuns := rfl

@[simp] theorem doCopy_decPathRuns (env : Env) (c : OngoingItemConfig) (st : MachineState) :
    (doCopy env c st).2.2.decPathRuns = st.decPathRuns := rfl

@[simp] theorem doCopy_freshOngoingCommits (env : Env) (c : OngoingItemConfig)
    (st : MachineState) :
    (doCopy env c st).2.2.freshOngoingCommits = st.freshOngoingCommits := rfl

@[simp] theorem doCopy_ongoing (env : Env) (c : OngoingItemConfig) (st : MachineState) :
    (doCopy env c st).2.2.ongoing =
      some { c with current_slice_index := some (env.copyCursor c) } := rfl

@[simp] theorem doCopy_cryptItems (env : Env) (c : OngoingItemConfig) (st : MachineState) :
    (doCopy env c st).2.2.cryptItems = st.cryptItems := rfl

@[simp] theorem doCopy_encryptionMark (env : Env) (c : OngoingItemConfig)
    (st : MachineState) :
    (doCopy env c st).2.2.encryptionMark = st.encryptionMark := rfl

@[simp] theorem doCopy_decryptionMark (env : Env) (c : OngoingItemConfig)
    (st : MachineState) :
    (doCopy env c st).2.2.decryptionMark = st.decryptionMark := rfl

@[simp] theorem addCryptItem_trace (ci : CryptItem) (b : Option String)
    (st : MachineState) :
    (addCryptItem ci b st).2.trace = st.trace ++ [Event.addCryptItemCall ci] := by
  unfold addCryptItem
  dsimp only
  split <;> simp [emit]

@[simp] theorem addCryptItem_encPathRuns (ci : CryptItem) (b : Option String)
    (st : MachineState) :
    (addCryptItem ci b st).2.encPathRuns = st.encPathRuns := by
  unfold addCryptItem
  dsimp only
  split <;> simp [emit]

@[simp] theorem addCryptItem_decPathRuns (ci : CryptItem) (b : Option String)
    (st : MachineState) :
    (addCryptItem ci b st).2.decPathRuns = st.decPathRuns := by
  unfold addCryptItem
  dsimp only
  split <;> simp [emit]

@[simp] theorem addCryptItem_freshOngoingCommits (ci : CryptItem) (b : Option String)
    (st : MachineState) :
    (addCryptItem ci b st).2.freshOngoingCommits = st.freshOngoingCommits := by
  unfold addCryptItem
  dsimp only
  split <;> simp [emit]

@[simp] theorem addCryptItem_ongoing (ci : CryptItem) (b : Option String)
    (st : MachineState) :
    (addCryptItem ci b st).2.ongoing = st.ongoing := by
  unfold addCryptItem
  dsimp only
  split <;> simp [emit]

@[simp] theorem addCryptItem_encryptionMark (ci : CryptItem) (b : Option String)
    (st : MachineState) :
    (addCryptItem ci b st).2.encryptionMark = st.encryptionMark := by
  unfold addCryptItem
  dsimp only
  split <;> simp [emit]

@[simp] theorem addCryptItem_decryptionMark (ci : CryptItem) (b : Option String)
    (st : MachineState) :
    (addCryptItem ci b st).2.decryptionMark = st.decryptionMark := by
  unfold addCryptItem
  dsimp only
  split <;> simp [emit]

@[simp] theorem updateCryptItem_trace (ci : CryptItem) (st : MachineState) :
    (updateCryptItem ci st).trace = st.trace := rfl

@[simp] theorem updateCryptItem_encPathRuns (ci : CryptItem) (st : MachineState) :
    (updateCryptItem ci st).encPathRuns = st.encPathRuns := rfl

@[simp] theorem updateCryptItem_decPathRuns (ci : CryptItem) (st : MachineState) :
    (updateCryptItem ci st).decPathRuns = st.decPathRuns := rfl

@[simp] theorem updateCryptItem_freshOngoingCommits (ci : CryptItem) (st : MachineState) :
    (updateCryptItem ci st).freshOngoingCommits = st.freshOngoingCommits := rfl

@[simp] theorem updateCryptItem_ongoing (ci : CryptItem) (st : MachineState) :
    (updateCryptItem ci st).ongoing = st.ongoing := rfl

@[simp] theorem updateCryptItem_decryptionMark (ci : CryptItem) (st : MachineState) :
    (updateCryptItem ci st).decryptionMark = st.decryptionMark := rfl

@[simp] theorem removeCryptItem_trace (ci : CryptItem) (st : MachineState) :
    (removeCryptItem ci st).trace = st.trace := rfl

@[simp] theorem removeCryptItem_encPathRuns (ci : CryptItem) (st : MachineState) :
    (removeCryptItem ci st).encPathRuns = st.encPathRuns := rfl

@[simp] theorem removeCryptItem_decPathRuns (ci : CryptItem) (st : MachineState) :
    (removeCryptItem ci st).decPathRuns = st.decPathRuns := rfl

@[simp] theorem removeCryptItem_freshOngoingCommits (ci : CryptItem) (st : MachineState) :
    (removeCryptItem ci st).freshOngoingCommits = st.freshOngoingCommits := rfl

@[simp] theorem removeCryptItem_ongoing (ci : CryptItem) (st : MachineState) :
    (removeCryptItem ci st).ongoing = st.ongoing := rfl

theorem preserves_addCryptItem (ci : CryptItem) (b : Option String)
    (st : MachineState) : Preserves st (addCryptItem ci b st).2 := by
  unfold addCryptItem
  dsimp only
  split <;>
    exact ⟨⟨[Event.addCryptItemCall ci], by simp [emit]⟩, rfl, rfl⟩

theorem preserves_updateCryptItem (ci : CryptItem) (st : MachineState) :
    Preserves st (updateCryptItem ci st) :=
  ⟨⟨[], by simp [updateCryptItem]⟩, rfl, rfl⟩

theorem preserves_removeCryptItem (ci : CryptItem) (st : MachineState) :
    Preserves st (removeCryptItem ci st) :=
  ⟨⟨[], by simp [removeCryptItem]⟩, rfl, rfl⟩

/-- `Preserves` plus: no fresh OngoingItemConfig commit happened. -/
def PreservesF (st st' : MachineState) : Prop :=
  Preserves st st' ∧ st'.freshOngoingCommits = st.freshOngoingCommits

theorem preservesF_trans {a b c : MachineState}
    (h1 : PreservesF a b) (h2 : PreservesF b c) : PreservesF a c :=
  ⟨preserves_trans h1.1 h2.1, h2.2.trans h1.2⟩

theorem preservesF_noSepRecoverHeader (env : Env) (o m : String) (s : Int)
    (cfg : OngoingItemConfig) (st : MachineState) :
    PreservesF st (noSepRecoverHeader env o m s cfg st).2 := by
  unfold noSepRecoverHeader
  repeat' (first | dsimp only | split)
  all_goals exact ⟨⟨⟨_, by simp; try rfl⟩, by simp, by simp⟩, by simp⟩

theorem preservesF_noSepCopyData (env : Env) (o m : String) (s : Int)
    (cfg : OngoingItemConfig) (st : MachineState) :
    PreservesF st (noSepCopyData env o m s cfg st).2 := by
  unfold noSepCopyData
  repeat' (first | dsimp only | split)
  all_goals first
    | exact ⟨⟨⟨_, by simp; try rfl⟩, by simp, by simp⟩, by simp⟩
    | exact preservesF_trans
        ⟨⟨⟨_, by simp; try rfl⟩, by simp, by simp⟩, by simp⟩
        (preservesF_noSepRecoverHeader _ _ _ _ _ _)

theorem preservesF_noSepEncryptDevice (env : Env) (p o m : String) (s : Int)
    (cfg : OngoingItemConfig) (st : MachineState) :
    PreservesF st (noSepEncryptDevice env p o m s cfg st).2 := by
  unfold noSepEncryptDevice
  repeat' (first | dsimp only | split)
  all_goals first
    | exact ⟨⟨⟨_, by simp; try rfl⟩, by simp, by simp⟩, by simp⟩
    | exact preservesF_trans
        ⟨⟨⟨_, by simp; try rfl⟩, by simp, by simp⟩, by simp⟩
        (preservesF_noSepCopyData _ _ _ _ _ _)

theorem preservesF_noSepBackupHeader (env : Env) (p o m : String) (s : Int)
    (cfg : OngoingItemConfig) (st : MachineState) :
    PreservesF st (noSepBackupHeader env p o m s cfg st).2 := by
  unfold noSepBackupHeader
  repeat' (first | dsimp only | split)
  all_goals first
    | exact ⟨⟨⟨_, by simp; try rfl⟩, by simp, by simp⟩, by simp⟩
    | exact preservesF_trans
        ⟨⟨⟨_, by simp; try rfl⟩, by simp, by simp⟩, by simp⟩
        (preservesF_noSepEncryptDevice _ _ _ _ _ _ _)

theorem preservesF_noSepDispatch (env : Env) (p o m : String) (s : Int)
    (ph : Option Phase) (cfg : OngoingItemConfig) (st : MachineState) :
    PreservesF st (noSepDispatch env p o m s ph cfg st).2 := by
  unfold noSepDispatch
  repeat' (first | dsimp only | split)
  all_goals first
    | exact ⟨⟨⟨_, by simp; try rfl⟩, by simp, by simp⟩, by simp⟩
    | exact preservesF_noSepBackupHeader _ _ _ _ _ _ _
    | exact preservesF_noSepEncryptDevice _ _ _ _ _ _ _
    | exact preservesF_noSepCopyData _ _ _ _ _ _
    | exact preservesF_noSepRecoverHeader _ _ _ _ _ _

theorem preservesF_encrypt_inplace_without_resume (env : Env) (p : String)
    (di : DeviceItem) (cfg : OngoingItemConfig) (st : MachineState) :
    PreservesF st
      (encrypt_inplace_without_separate_header_file env p di (some cfg) st).2 := by
  unfold encrypt_inplace_without_separate_header_file
  repeat' (first | dsimp only | split)
  all_goals first
    | exact ⟨⟨⟨_, by simp; try rfl⟩, by simp, by simp⟩, by simp⟩
    | exact preservesF_noSepDispatch _ _ _ _ _ _ _ _

theorem preserves_encrypt_inplace_without (env : Env) (p : String)
    (di : DeviceItem) (oic : Option OngoingItemConfig) (st : MachineState) :
    Preserves st
      (encrypt_inplace_without_separate_header_file env p di oic st).2 := by
  cases oic with
  | some c => exact (preservesF_encrypt_inplace_without_resume env p di c st).1
  | none =>
    unfold encrypt_inplace_without_separate_header_file
    repeat' (first | dsimp only | split)
    all_goals first
      | exact ⟨⟨_, by simp; try rfl⟩, by simp, by simp⟩
      | exact preserves_trans
          ⟨⟨_, by simp; try rfl⟩, by simp, by simp⟩
          (preservesF_noSepDispatch _ _ _ _ _ _ _ _).1

theorem preservesF_sepCopyDataTail (env : Env) (m o : String)
    (h : Option String) (cfg : OngoingItemConfig) (st : MachineState) :
    PreservesF st (sepCopyDataTail env m o h cfg st).2 := by
  unfold sepCopyDataTail
  repeat' (first | dsimp only | split)
  all_goals exact ⟨⟨⟨_, by simp; try rfl⟩, by simp, by simp⟩, by simp⟩

theorem preservesF_sepCopyData (env : Env) (p : String)
    (cfg : OngoingItemConfig) (st : MachineState) :
    PreservesF st (sepCopyData env p cfg st).2 := by
  unfold sepCopyData
  repeat' (first | dsimp only | split)
  all_goals first
    | exact ⟨⟨⟨_, by simp; try rfl⟩, by simp, by simp⟩, by simp⟩
    | exact preservesF_sepCopyDataTail _ _ _ _ _ _
    | exact preservesF_trans
        ⟨⟨⟨_, by simp; try rfl⟩, by simp, by simp⟩, by simp⟩
        (preservesF_sepCopyDataTail _ _ _ _ _ _)

theorem preservesF_sepEncryptDevice (env : Env) (p : String)
    (cfg : OngoingItemConfig) (st : MachineState) :
    PreservesF st (sepEncryptDevice env p cfg st).2 := by
  unfold sepEncryptDevice
  repeat' (first | dsimp only | split)
  all_goals first
    | exact ⟨⟨⟨_, by simp; try rfl⟩, by simp, by simp⟩, by simp⟩
    | exact preservesF_trans
        ⟨⟨⟨_, by simp; try rfl⟩, by simp, by simp⟩, by simp⟩
        (preservesF_sepCopyData _ _ _ _)

theorem preservesF_sepDispatch (env : Env) (p : String) (ph : Option Phase)
    (cfg : OngoingItemConfig) (st : MachineState) :
    PreservesF st (sepDispatch env p ph cfg st).2 := by
  unfold sepDispatch
  repeat' (first | dsimp only | split)
  all_goals first
    | exact ⟨⟨⟨_, by simp; try rfl⟩, by simp, by simp⟩, by simp⟩
    | exact preservesF_sepEncryptDevice _ _ _ _
    | exact preservesF_sepCopyData _ _ _ _

theorem preservesF_encrypt_inplace_with_resume (env : Env) (p : String)
    (di : DeviceItem) (cfg : OngoingItemConfig) (st : MachineState) :
    PreservesF st
      (encrypt_inplace_with_separate_header_file env p di (some cfg) st).2 := by
  unfold encrypt_inplace_with_separate_header_file
  exact preservesF_sepDispatch _ _ _ _ _

theorem preserves_encrypt_inplace_with (env : Env) (p : String)
    (di : DeviceItem) (oic : Option OngoingItemConfig) (st : MachineState) :
    Preserves st
      (encrypt_inplace_with_separate_header_file env p di oic st).2 := by
  cases oic with
  | some c => exact (preservesF_encrypt_inplace_with_resume env p di c st).1
  | none =>
    unfold encrypt_inplace_with_separate_header_file
    repeat' (first | dsimp only | split)
    all_goals first
      | exact ⟨⟨_, by simp; try rfl⟩, by simp, by simp⟩
      | exact preserves_trans
          ⟨⟨_, by simp; try rfl⟩, by simp, by simp⟩
          (preservesF_sepDispatch _ _ _ _ _).1

theorem preservesF_decrypt_inplace_copy_data_resume (env : Env)
    (ci : CryptItem) (md : DeviceItem) (cfg : OngoingItemConfig)
    (st : MachineState) :
    PreservesF st (decrypt_inplace_copy_data env ci md (some cfg) st).2 := by
  unfold decrypt_inplace_copy_data
  repeat' (first | dsimp only | split)
  all_goals exact ⟨⟨⟨_, by simp; try rfl⟩, by simp, by simp⟩, by simp⟩

theorem preserves_decrypt_inplace_copy_data (env : Env) (ci : CryptItem)
    (md : DeviceItem) (oic : Option OngoingItemConfig) (st : MachineState) :
    Preserves st (decrypt_inplace_copy_data env ci md oic st).2 := by
  cases oic with
  | some c => exact (preservesF_decrypt_inplace_copy_data_resume env ci md c st).1
  | none =>
    unfold decrypt_inplace_copy_data
    repeat' (first | dsimp only | split)
    all_goals exact ⟨⟨_, by simp; try rfl⟩, by simp, by simp⟩

theorem preserves_decrypt_inplace_without (env : Env) (ci : CryptItem)
    (rd md : DeviceItem) (oic : Option OngoingItemConfig) (st : MachineState) :
    Preserves st
      (decrypt_inplace_without_separate_header_file env ci rd md oic st).2 := by
  unfold decrypt_inplace_without_separate_header_file
  repeat' (first | dsimp only | split)
  all_goals first
    | exact preserves_refl _
    | exact preserves_decrypt_inplace_copy_data _ _ _ _ _

theorem preserves_decrypt_inplace_with (env : Env) (ci : CryptItem)
    (rd md : DeviceItem) (oic : Option OngoingItemConfig) (st : MachineState) :
    Preserves st
      (decrypt_inplace_with_separate_header_file env ci rd md oic st).2 := by
  unfold decrypt_inplace_with_separate_header_file
  repeat' (first | dsimp only | split)
  all_goals first
    | exact preserves_refl _
    | exact preserves_decrypt_inplace_copy_data _ _ _ _ _

theorem preserves_of_eq {β : Type} {st : MachineState}
    {p : β × MachineState} {r : β} {st' : MachineState}
    (hp : Preserves st p.2) (heq : p = (r, st')) : Preserves st st' := by
  rw [heq] at hp
  exact hp

theorem preserves_disableAllLoop (env : Env) (devs : List DeviceItem)
    (l : List CryptItem) (st : MachineState) :
    Preserves st (disableAllLoop env devs l st).2 := by
  induction l generalizing st with
  | nil => exact preserves_refl st
  | cons ci rest ih =>
    unfold disableAllLoop
    split
    next => exact preserves_refl _
    next raw _ =>
      split
      next => exact preserves_refl _
      next md _ =>
        split
        next ph st2 heq =>
          have h1 : Preserves st st2 := preserves_of_eq
            (by split
                · exact preserves_decrypt_inplace_with _ _ _ _ _ _
                · exact preserves_decrypt_inplace_without _ _ _ _ _ _) heq
          dsimp only
          split
          · exact preserves_trans
              (preserves_trans h1 ⟨⟨_, by simp; try rfl⟩, by simp, by simp⟩)
              (ih _)
          · exact h1
        next st2 heq =>
          exact preserves_of_eq
            (by split
                · exact preserves_decrypt_inplace_with _ _ _ _ _ _
                · exact preserves_decrypt_inplace_without _ _ _ _ _ _) heq
        next b st2 heq =>
          exact preserves_of_eq
            (by split
                · exact preserves_decrypt_inplace_with _ _ _ _ _ _
                · exact preserves_decrypt_inplace_without _ _ _ _ _ _) heq
        next st2 heq =>
          exact preserves_of_eq
            (by split
                · exact preserves_decrypt_inplace_with _ _ _ _ _ _
                · exact preserves_decrypt_inplace_without _ _ _ _ _ _) heq

theorem preserves_disable_encryption_all_in_place (env : Env) (st : MachineState) :
    Preserves st (disable_encryption_all_in_place env st).2 :=
  preserves_disableAllLoop env env.device_items st.cryptItems st

theorem preserves_stamp (env : Env) (st : MachineState) :
    Preserves st (stamp_disks_with_settings env st).2 := by
  unfold stamp_disks_with_settings
  split <;> exact ⟨⟨_, by simp; try rfl⟩, by simp, by simp⟩

theorem preserves_encryptAllInPlaceRun (env : Env) (p : String)
    (d : DeviceItem) (st : MachineState) :
    Preserves st (encryptAllInPlaceRun env p d st).2 := by
  unfold encryptAllInPlaceRun
  split
  next ph st2 heq =>
    have h1 : Preserves st st2 :=
      preserves_of_eq (preserves_encrypt_inplace_without env p d none st) heq
    split
    · exact h1
    · exact h1
  next st2 heq =>
    exact preserves_of_eq (preserves_encrypt_inplace_without env p d none st) heq
  next b st2 heq =>
    exact preserves_of_eq (preserves_encrypt_inplace_without env p d none st) heq
  next st2 heq =>
    exact preserves_of_eq (preserves_encrypt_inplace_without env p d none st) heq

theorem preserves_encryptAllInPlaceStep (env : Env) (p : String)
    (d : DeviceItem) (st : MachineState) :
    Preserves st (encryptAllInPlaceStep env p d st).2 := by
  unfold encryptAllInPlaceStep
  repeat' (first | dsimp only | split)
  all_goals first
    | exact preserves_emit _ _
    | exact preserves_encryptAllInPlaceRun _ _ _ _
    | exact preserves_trans (preserves_emit _ _)
        (preserves_encryptAllInPlaceRun _ _ _ _)

theorem preserves_encryptAllInPlaceLoop (env : Env) (p : String)
    (l : List DeviceItem) (st : MachineState) :
    Preserves st (encryptAllInPlaceLoop env p l st).2 := by
  induction l generalizing st with
  | nil => exact preserves_refl st
  | cons d rest ih =>
    unfold encryptAllInPlaceLoop
    split
    next st2 heq =>
      exact preserves_trans
        (preserves_of_eq (preserves_encryptAllInPlaceStep env p d st) heq)
        (ih _)
    next r st2 heq =>
      exact preserves_of_eq (preserves_encryptAllInPlaceStep env p d st) heq

theorem preserves_enable_encryption_all_in_place (env : Env) (p : String)
    (m : EncryptionMarkConfig) (os_items : List DeviceItem) (st : MachineState) :
    Preserves st (enable_encryption_all_in_place env p m os_items st).2 := by
  unfold enable_encryption_all_in_place
  repeat' (first | dsimp only | split)
  all_goals rename_i heq
  all_goals
    have h1 : Preserves st _ := preserves_of_eq
      (by split
          · exact preserves_stamp _ _
          · exact preserves_refl _) heq
  all_goals first
    | exact h1
    | exact preserves_trans h1 (preserves_encryptAllInPlaceLoop _ _ _ _)

theorem preserves_formatLoop (env : Env) (p : String)
    (l : List (DeviceItem × FormatItem × String)) (st : MachineState) :
    Preserves st (formatLoop env p l st).2 := by
  induction l generalizing st with
  | nil => exact preserves_refl st
  | cons t rest ih =>
    obtain ⟨d, it, dq⟩ := t
    unfold formatLoop
    repeat' (first | dsimp only | split)
    all_goals first
      | exact ⟨⟨_, by simp; try rfl⟩, by simp, by simp⟩
      | exact preserves_trans ⟨⟨_, by simp; try rfl⟩, by simp, by simp⟩ (ih _)

theorem preserves_enable_encryption_format (env : Env) (p : String)
    (items : List FormatItem) (force : Bool) (os_items : List DeviceItem)
    (st : MachineState) :
    Preserves st (enable_encryption_format env p items force os_items st).2 := by
  unfold enable_encryption_format
  repeat' (first | dsimp only | split)
  all_goals try exact preserves_refl _
  all_goals rename_i heq
  all_goals
    have h1 : Preserves st _ := preserves_of_eq
      (by split
          · exact preserves_stamp _ _
          · exact preserves_refl _) heq
  all_goals first
    | exact h1
    | exact preserves_trans h1 (preserves_formatLoop _ _ _ _)

theorem preserves_encrypt_format_device_items (env : Env) (p : String)
    (dl : List DeviceItem) (force : Bool) (os_items : List DeviceItem)
    (st : MachineState) :
    Preserves st (encrypt_format_device_items env p dl force os_items st).2 :=
  preserves_enable_encryption_format env p _ force [] st

theorem preserves_enable_encryption_all_format (env : Env) (p : String)
    (m : EncryptionMarkConfig) (os_items : List DeviceItem) (st : MachineState) :
    Preserves st (enable_encryption_all_format env p m os_items st).2 :=
  preserves_encrypt_format_device_items env p _ true os_items st

theorem preserves_resumeUmountState (cfg : OngoingItemConfig)
    (st : MachineState) : Preserves st (resumeUmountState cfg st) := by
  unfold resumeUmountState
  repeat' (first | dsimp only | split)
  all_goals first
    | exact preserves_emit _ _
    | exact preserves_refl _

theorem preserves_resumeMachineCall (env : Env) (bek : String)
    (cfg : OngoingItemConfig) (st : MachineState) :
    Preserves st (resumeMachineCall env bek cfg st).2 := by
  unfold resumeMachineCall
  split
  · exact preserves_encrypt_inplace_without _ _ _ _ _
  · exact preserves_encrypt_inplace_with _ _ _ _ _

theorem preserves_daemon_encrypt_data_volumes (env : Env) (bek : String)
    (os_items : List DeviceItem) (st : MachineState) :
    Preserves st (daemon_encrypt_data_volumes env bek os_items st).2 := by
  unfold daemon_encrypt_data_volumes
  split
  next cfg _ =>
    have hcall : Preserves st
        (resumeMachineCall env bek cfg (resumeUmountState cfg st)).2 :=
      preserves_trans (preserves_resumeUmountState cfg st)
        (preserves_resumeMachineCall env bek cfg _)
    split
    next ph st2 heq =>
      have h1 : Preserves st st2 := preserves_of_eq hcall heq
      split
      · exact h1
      · exact preserves_trans h1 (preserves_clear _)
    next st2 heq => exact preserves_of_eq hcall heq
    next b st2 heq => exact preserves_of_eq hcall heq
    next st2 heq => exact preserves_of_eq hcall heq
  next =>
    repeat' (first | dsimp only | split)
    all_goals try exact preserves_refl _
    all_goals rename_i heq
    all_goals first
      | exact preserves_of_eq (preserves_enable_encryption_all_in_place _ _ _ _ _) heq
      | exact preserves_of_eq (preserves_enable_encryption_format _ _ _ _ _ _) heq

theorem preserves_dataVolumesLoop (env : Env) (bek : String)
    (os_items : List DeviceItem) (fuel : Nat) (st : MachineState) :
    Preserves st (dataVolumesLoop env bek os_items fuel st).2 := by
  induction fuel generalizing st with
  | zero => exact preserves_refl st
  | succ n ih =>
    unfold dataVolumesLoop
    split
    next st2 heq =>
      exact preserves_of_eq (preserves_daemon_encrypt_data_volumes env bek os_items st) heq
    next st2 heq =>
      exact preserves_trans
        (preserves_of_eq (preserves_daemon_encrypt_data_volumes env bek os_items st) heq)
        (ih _)
    next st2 heq =>
      exact preserves_of_eq (preserves_daemon_encrypt_data_volumes env bek os_items st) heq
    next b st2 heq =>
      exact preserves_of_eq (preserves_daemon_encrypt_data_volumes env bek os_items st) heq
    next st2 heq =>
      exact preserves_of_eq (preserves_daemon_encrypt_data_volumes env bek os_items st) heq

theorem preserves_daemonEncryptOs (env : Env) (st : MachineState) :
    Preserves st (daemonEncryptOs env st).2 := by
  unfold daemonEncryptOs
  split
  next => exact preserves_refl _
  next =>
    split
    next a st2 heq =>
      have h1 : Preserves st st2 := preserves_of_eq
        (by split
            · exact preserves_stamp _ _
            · exact preserves_refl _) heq
      split
      · exact preserves_trans h1 ⟨⟨_, by simp; try rfl⟩, by simp, by simp⟩
      · exact h1
    next st2 heq =>
      exact preserves_of_eq
        (by split
            · exact preserves_stamp _ _
            · exact preserves_refl _) heq
    next b st2 heq =>
      exact preserves_of_eq
        (by split
            · exact preserves_stamp _ _
            · exact preserves_refl _) heq
    next st2 heq =>
      exact preserves_of_eq
        (by split
            · exact preserves_stamp _ _
            · exact preserves_refl _) heq

theorem preserves_dataStepAux (env : Env) (bek : String)
    (os_items : List DeviceItem) (c : Prop) [Decidable c] (st : MachineState) :
    Preserves st
      ((if c then
          match dataVolumesLoop env bek os_items 4 st with
          | (PyRes.ret _, st) => ((PyRes.ret () : PyRes Unit), st)
          | (PyRes.exn, st) => (PyRes.exited false, st)
          | (PyRes.exited b, st) => (PyRes.exited b, st)
          | (PyRes.nonterm, st) => (PyRes.nonterm, st)
        else (PyRes.ret (), st)).2) := by
  split
  · split
    next a st2 heq =>
      exact preserves_of_eq (preserves_dataVolumesLoop env bek os_items 4 st) heq
    next st2 heq =>
      exact preserves_of_eq (preserves_dataVolumesLoop env bek os_items 4 st) heq
    next b st2 heq =>
      exact preserves_of_eq (preserves_dataVolumesLoop env bek os_items 4 st) heq
    next st2 heq =>
      exact preserves_of_eq (preserves_dataVolumesLoop env bek os_items 4 st) heq
  · exact preserves_refl _

theorem preserves_daemon_encrypt (env : Env) (st : MachineState) :
    Preserves st (daemon_encrypt env st).2 := by
  unfold daemon_encrypt
  repeat' (first | dsimp only | split)
  all_goals try exact preserves_refl _
  all_goals try exact preserves_daemonEncryptOs _ _
  all_goals first
    | (rename_i heq
       first
         | exact preserves_of_eq (preserves_dataStepAux _ _ _ _ _) heq
         | exact preserves_trans
             (preserves_of_eq (preserves_dataStepAux _ _ _ _ _) heq)
             (preserves_daemonEncryptOs _ _))
    | (rename_i heq x
       first
         | exact preserves_of_eq (preserves_dataStepAux _ _ _ _ _) heq
         | exact preserves_trans
             (preserves_of_eq (preserves_dataStepAux _ _ _ _ _) heq)
             (preserves_daemonEncryptOs _ _))

theorem preserves_daemon_decrypt (env : Env) (st : MachineState) :
    Preserves st (daemon_decrypt env st).2 := by
  unfold daemon_decrypt
  repeat' (first | dsimp only | split)
  all_goals try exact preserves_refl _
  all_goals rename_i heq
  all_goals
    have h1 : Preserves st _ :=
      preserves_of_eq (preserves_disable_encryption_all_in_place env st) heq
  all_goals first
    | exact h1
    | exact preserves_trans h1 ⟨⟨_, by simp; try rfl⟩, by simp, by simp⟩

theorem fresh_of_eq {β : Type} {n : Nat} {p : β × MachineState} {r : β}
    {st' : MachineState} (hp : p.2.freshOngoingCommits = n)
    (heq : p = (r, st')) : st'.freshOngoingCommits = n := by
  rw [heq] at hp
  exact hp

theorem fresh_resumeUmountState (cfg : OngoingItemConfig) (st : MachineState) :
    (resumeUmountState cfg st).freshOngoingCommits = st.freshOngoingCommits := by
  unfold resumeUmountState
  repeat' (first | dsimp only | split)
  all_goals simp

theorem fresh_resumeMachineCall (env : Env) (bek : String)
    (cfg : OngoingItemConfig) (st : MachineState) :
    (resumeMachineCall env bek cfg st).2.freshOngoingCommits =
      st.freshOngoingCommits := by
  unfold resumeMachineCall
  split
  · exact (preservesF_encrypt_inplace_without_resume _ _ _ _ _).2
  · exact (preservesF_encrypt_inplace_with_resume _ _ _ _ _).2

theorem fresh_daemon_encrypt_data_volumes_resume (env : Env) (bek : String)
    (os_items : List DeviceItem) (st : MachineState) (cfg : OngoingItemConfig)
    (h : st.ongoing = some cfg) :
    (daemon_encrypt_data_volumes env bek os_items st).2.freshOngoingCommits =
      st.freshOngoingCommits := by
  unfold daemon_encrypt_data_volumes
  rw [h]
  dsimp only
  have hcall : (resumeMachineCall env bek cfg (resumeUmountState cfg st)).2.freshOngoingCommits =
      st.freshOngoingCommits := by
    rw [fresh_resumeMachineCall, fresh_resumeUmountState]
  split
  next ph st2 heq =>
    have h1 := fresh_of_eq hcall heq
    split
    · exact h1
    · simpa using h1
  next st2 heq => exact fresh_of_eq hcall heq
  next b st2 heq => exact fresh_of_eq hcall heq
  next st2 heq => exact fresh_of_eq hcall heq

/-!
## Concrete environment and state used to instantiate theorems
-/

/-- A concrete oracle environment where every primitive succeeds. -/
def baseEnv : Env :=
  { lock_ok := true
    new_uuid := fun n => "uuid-" ++ toString n
    path_exists := fun _ => true
    check_shrink_fs := fun _ _ => 0
    encrypt_disk := fun _ _ _ _ => 0
    copyResult := fun _ => 0
    copyCursor := fun _ => 0
    luks_open := fun _ _ _ => 0
    query_dev_id_path := fun s => s
    umount := fun _ => 0
    create_luks_header := fun m => some ("/headers/" ++ m)
    luksDumpPayloadSectors := fun _ => some 4096
    realpath := fun s => s
    device_items := []
    device_items_at := fun _ => []
    should_skip_for_inplace := fun _ _ => false
    passphrase_device := "sdb"
    udev_table := fun _ => none
    get_bek := some "/bek/passphrase"
    oldroot_code := 1
    current_seq := 0
    stamp_ok := true
    param_volume_type := some "Data"
    parse_disk_format_query := fun _ => none
    query_scsi := fun _ => ""
    format_disk := fun _ _ => 0
    os_supported := true
    os_state_initial := "uninitialized"
    os_run_ok := true
    os_final_state := "completed"
    luks_add_cleartext_key := fun _ _ _ => 0
    encryption_status_os := "NotEncrypted" }

/-- An empty persisted state. -/
def baseState : MachineState :=
  { ongoing := none
    cryptItems := []
    encryptionMark := none
    decryptionMark := none
    encryptionConfig := none
    trace := []
    uuidCounter := 0
    encPathRuns := 0
    decPathRuns := 0
    freshOngoingCommits := 0 }

/-!
## The claims
-/

/-- Claim C7: whenever the process-level advisory lock is already held
(`try_lock` fails), `daemon` returns immediately with the persisted state
completely untouched - no marks, OngoingItemConfig, registry or
encryption config are mutated, no primitive is invoked, and neither the
decryption nor the encryption path is entered. -/
theorem C7_daemon_lock_held_no_side_effects (env : Env) (st : MachineState)
    (h : env.lock_ok = false) :
    daemon env st = (PyRes.ret (), st) := by
  unfold daemon
  rw [h]
  rfl

/-- Witness for C7 at a concrete locked environment. -/
theorem C7_daemon_lock_held_no_side_effects_witness :
    ({ baseEnv with lock_ok := false } : Env).lock_ok = false ∧
    daemon { baseEnv with lock_ok := false } baseState = (PyRes.ret (), baseState) :=
  ⟨rfl, C7_daemon_lock_held_no_side_effects { baseEnv with lock_ok := false }
    baseState rfl⟩

/-- Claim C1: in the `CopyData` phase of the no-separate-header
encrypt-in-place machine, the copy descriptor committed to the
OngoingItemConfig before the copy always has source = the original raw
device path, destination = the mapper device path, total copy size =
device size minus the LUKS header size, and direction from-end
(`from_end = true`), never from-start.  The descriptor is the argument of
the first copy-primitive call of the run entered at phase `CopyData`. -/
theorem C1_copydata_descriptor (env : Env) (pass : String) (di : DeviceItem)
    (cfg : OngoingItemConfig) (st : MachineState)
    (odev mapper : String) (dsize : Int)
    (hph : cfg.phase = some Phase.CopyData)
    (hod : cfg.original_dev_path = some odev)
    (hmn : cfg.mapper_name = some mapper)
    (hds : cfg.device_size = some dsize) :
    ∃ d Δ,
      (encrypt_inplace_without_separate_header_file env pass di (some cfg) st).2.trace
          = st.trace ++ Event.copyCall d :: Δ ∧
      d.current_source_path = some odev ∧
      d.current_destination = some (dev_mapper_root ++ mapper) ∧
      d.current_total_copy_size = some (dsize - luks_header_size) ∧
      d.from_end = some true ∧
      d.from_end ≠ some false := by
  unfold encrypt_inplace_without_separate_header_file
  dsimp only
  rw [hds, hod, hmn]
  dsimp only
  unfold noSepDispatch
  rw [hph]
  dsimp only
  unfold noSepCopyData
  dsimp only
  split
  next hc =>
    exact ⟨_, [], by simp; try rfl, by simp, by simp, by simp, by simp, by simp⟩
  next hc =>
    obtain ⟨⟨Δ2, hΔ2⟩, -, -⟩ :=
      (preservesF_noSepRecoverHeader env odev mapper dsize _ _).1
    rw [hΔ2]
    exact ⟨_, Δ2, by simp; try rfl, by simp, by simp, by simp, by simp, by simp⟩

/-- A concrete resume checkpoint sitting at phase `CopyData`. -/
def c1Cfg : OngoingItemConfig :=
  { phase := some Phase.CopyData
    original_dev_path := some "/dev/sdc"
    original_dev_name_path := some "/dev/sdc"
    mapper_name := some "m1"
    device_size := some 50000000
    file_system := some "ext4" }

/-- Witness for C1 at a concrete resume entry. -/
theorem C1_copydata_descriptor_witness :
    c1Cfg.phase = some Phase.CopyData ∧
    c1Cfg.original_dev_path = some "/dev/sdc" ∧
    c1Cfg.mapper_name = some "m1" ∧
    c1Cfg.device_size = some 50000000 ∧
    (∃ d Δ,
      (encrypt_inplace_without_separate_header_file baseEnv "pass" dummyDeviceItem
          (some c1Cfg) baseState).2.trace
          = baseState.trace ++ Event.copyCall d :: Δ ∧
      d.current_source_path = some "/dev/sdc" ∧
      d.current_destination = some (dev_mapper_root ++ "m1") ∧
      d.current_total_copy_size = some (50000000 - luks_header_size) ∧
      d.from_end = some true ∧
      d.from_end ≠ some false) :=
  ⟨rfl, rfl, rfl, rfl,
    C1_copydata_descriptor baseEnv "pass" dummyDeviceItem c1Cfg baseState
      "/dev/sdc" "m1" 50000000 rfl rfl rfl rfl⟩

theorem noSepBackupHeader_fs_fail (env : Env) (p o m : String) (s : Int)
    (cfg : OngoingItemConfig) (st : MachineState) (fs : String)
    (hfs : cfg.file_system = some fs)
    (hc : (["ext2", "ext3", "ext4"].contains (strLower fs)) = false) :
    noSepBackupHeader env p o m s cfg st
      = (PyRes.ret (some Phase.BackupHeader), clearOngoingConfig st) := by
  unfold noSepBackupHeader
  rw [hfs]
  dsimp only
  rw [hc]
  simp

theorem noSepBackupHeader_shrink_fail (env : Env) (p o m : String) (s : Int)
    (cfg : OngoingItemConfig) (st : MachineState) (fs : String)
    (hfs : cfg.file_system = some fs)
    (hc : (["ext2", "ext3", "ext4"].contains (strLower fs)) = true)
    (hshr : env.check_shrink_fs o ((s - luks_header_size).fdiv sector_size) ≠ process_success) :
    noSepBackupHeader env p o m s cfg st
      = (PyRes.ret (some Phase.BackupHeader), clearOngoingConfig st) := by
  unfold noSepBackupHeader
  rw [hfs]
  dsimp only
  rw [hc]
  simp [hshr]

theorem noSepBackupHeader_copy_fail (env : Env) (p o m : String) (s : Int)
    (cfg : OngoingItemConfig) (st : MachineState) (fs : String)
    (hfs : cfg.file_system = some fs)
    (hc : (["ext2", "ext3", "ext4"].contains (strLower fs)) = true)
    (hshr : env.check_shrink_fs o ((s - luks_header_size).fdiv sector_size) = process_success)
    (hcpy : ∀ c, env.copyResult c ≠ process_success) :
    (noSepBackupHeader env p o m s cfg st).1 = PyRes.ret (some Phase.BackupHeader) ∧
    ∃ d, (noSepBackupHeader env p o m s cfg st).2.ongoing = some d ∧
      d.phase = cfg.phase := by
  unfold noSepBackupHeader
  rw [hfs]
  dsimp only
  rw [hc]
  simp [hshr, hcpy]

theorem noSepEncryptDevice_fail (env : Env) (p o m : String) (s : Int)
    (cfg : OngoingItemConfig) (st : MachineState)
    (henc : env.encrypt_disk o p m none ≠ process_success) :
    noSepEncryptDevice env p o m s cfg st
      = (PyRes.ret (some Phase.EncryptDevice),
         emit (Event.encryptDiskCall o m none) st) := by
  unfold noSepEncryptDevice
  simp [henc]

theorem noSepCopyData_fail (env : Env) (o m : String) (s : Int)
    (cfg : OngoingItemConfig) (st : MachineState)
    (hcpy : ∀ c, env.copyResult c ≠ process_success) :
    (noSepCopyData env o m s cfg st).1 = PyRes.ret (some Phase.CopyData) ∧
    ∃ d, (noSepCopyData env o m s cfg st).2.ongoing = some d ∧
      d.phase = some Phase.CopyData := by
  unfold noSepCopyData
  simp [hcpy]

theorem noSepRecoverHeader_fail (env : Env) (o m : String) (s : Int)
    (cfg : OngoingItemConfig) (st : MachineState)
    (hcpy : ∀ c, env.copyResult c ≠ process_success) :
    (noSepRecoverHeader env o m s cfg st).1 = PyRes.ret (some Phase.RecoverHeader) ∧
    ∃ d, (noSepRecoverHeader env o m s cfg st).2.ongoing = some d ∧
      d.phase = cfg.phase := by
  unfold noSepRecoverHeader
  simp [hcpy]

theorem noSep_entry_resume (env : Env) (p : String) (di : DeviceItem)
    (cfg : OngoingItemConfig) (st : MachineState)
    (odev mapper : String) (dsize : Int)
    (hds : cfg.device_size = some dsize)
    (hod : cfg.original_dev_path = some odev)
    (hmn : cfg.mapper_name = some mapper) :
    encrypt_inplace_without_separate_header_file env p di (some cfg) st
      = noSepDispatch env p odev mapper dsize cfg.phase cfg st := by
  unfold encrypt_inplace_without_separate_header_file
  dsimp only
  rw [hds, hod, hmn]

/-- Claim C2: in `encrypt_inplace_without_separate_header_file`, a
preflight failure in the `BackupHeader` phase (filesystem not in the
ext2/ext3/ext4 allow-list, or the shrink check failing) clears the whole
OngoingItemConfig and returns phase `BackupHeader` - both on a fresh
invocation and on a resume - whereas a failure in any later step after
the preflight passed (header-slice copy, device encrypt, data copy,
header recover) returns the phase it failed in with the
OngoingItemConfig left committed at that same phase, so that a
re-invocation resumes it. -/
theorem C2_backupheader_abandon_later_resume (env : Env) (p : String)
    (di : DeviceItem) (cfg : OngoingItemConfig) (st : MachineState)
    (odev mapper : String) (dsize : Int) (fs : String)
    (hds : cfg.device_size = some dsize)
    (hod : cfg.original_dev_path = some odev)
    (hmn : cfg.mapper_name = some mapper)
    (hfs : cfg.file_system = some fs)
    (hsto : st.ongoing = some cfg) :
    -- preflight failure 1: unsupported filesystem clears and returns BackupHeader
    ((cfg.phase = some Phase.BackupHeader ∧
      (["ext2", "ext3", "ext4"].contains (strLower fs)) = false) →
      encrypt_inplace_without_separate_header_file env p di (some cfg) st
        = (PyRes.ret (some Phase.BackupHeader), clearOngoingConfig st)) ∧
    -- preflight failure 2: failed shrink check clears and returns BackupHeader
    ((cfg.phase = some Phase.BackupHeader ∧
      (["ext2", "ext3", "ext4"].contains (strLower fs)) = true ∧
      env.check_shrink_fs odev ((dsize - luks_header_size).fdiv sector_size)
        ≠ process_success) →
      encrypt_inplace_without_separate_header_file env p di (some cfg) st
        = (PyRes.ret (some Phase.BackupHeader), clearOngoingConfig st)) ∧
    -- later failure: header-slice copy, after the preflight passed
    ((cfg.phase = some Phase.BackupHeader ∧
      (["ext2", "ext3", "ext4"].contains (strLower fs)) = true ∧
      env.check_shrink_fs odev ((dsize - luks_header_size).fdiv sector_size)
        = process_success ∧
      (∀ c, env.copyResult c ≠ process_success)) →
      (encrypt_inplace_without_separate_header_file env p di (some cfg) st).1
          = PyRes.ret (some Phase.BackupHeader) ∧
      ∃ d, (encrypt_inplace_without_separate_header_file env p di (some cfg) st).2.ongoing
            = some d ∧ d.phase = some Phase.BackupHeader) ∧
    -- later failure: device encrypt
    ((cfg.phase = some Phase.EncryptDevice ∧
      env.encrypt_disk odev p mapper none ≠ process_success) →
      (encrypt_inplace_without_separate_header_file env p di (some cfg) st).1
          = PyRes.ret (some Phase.EncryptDevice) ∧
      ∃ d, (encrypt_inplace_without_separate_header_file env p di (some cfg) st).2.ongoing
            = some d ∧ d.phase = some Phase.EncryptDevice) ∧
    -- later failure: data copy
    ((cfg.phase = some Phase.CopyData ∧
      (∀ c, env.copyResult c ≠ process_success)) →
      (encrypt_inplace_without_separate_header_file env p di (some cfg) st).1
          = PyRes.ret (some Phase.CopyData) ∧
      ∃ d, (encrypt_inplace_without_separate_header_file env p di (some cfg) st).2.ongoing
            = some d ∧ d.phase = some Phase.CopyData) ∧
    -- later failure: header recover
    ((cfg.phase = some Phase.RecoverHeader ∧
      (∀ c, env.copyResult c ≠ process_success)) →
      (encrypt_inplace_without_separate_header_file env p di (some cfg) st).1
          = PyRes.ret (some Phase.RecoverHeader) ∧
      ∃ d, (encrypt_inplace_without_separate_header_file env p di (some cfg) st).2.ongoing
            = some d ∧ d.phase = some Phase.RecoverHeader) := by
  refine ⟨?_, ?_, ?_, ?_, ?_, ?_⟩
  · rintro ⟨hph, hc⟩
    rw [noSep_entry_resume env p di cfg st odev mapper dsize hds hod hmn]
    unfold noSepDispatch
    rw [hph]
    exact noSepBackupHeader_fs_fail env p odev mapper dsize cfg st fs hfs hc
  · rintro ⟨hph, hc, hshr⟩
    rw [noSep_entry_resume env p di cfg st odev mapper dsize hds hod hmn]
    unfold noSepDispatch
    rw [hph]
    exact noSepBackupHeader_shrink_fail env p odev mapper dsize cfg st fs hfs hc hshr
  · rintro ⟨hph, hc, hshr, hcpy⟩
    rw [noSep_entry_resume env p di cfg st odev mapper dsize hds hod hmn]
    unfold noSepDispatch
    rw [hph]
    have h := noSepBackupHeader_copy_fail env p odev mapper dsize cfg st fs hfs hc hshr hcpy
    rw [hph] at h
    exact h
  · rintro ⟨hph, henc⟩
    rw [noSep_entry_resume env p di cfg st odev mapper dsize hds hod hmn]
    unfold noSepDispatch
    rw [hph]
    rw [noSepEncryptDevice_fail env p odev mapper dsize cfg st henc]
    exact ⟨rfl, cfg, by simp [hsto], hph⟩
  · rintro ⟨hph, hcpy⟩
    rw [noSep_entry_resume env p di cfg st odev mapper dsize hds hod hmn]
    unfold noSepDispatch
    rw [hph]
    exact noSepCopyData_fail env odev mapper dsize cfg st hcpy
  · rintro ⟨hph, hcpy⟩
    rw [noSep_entry_resume env p di cfg st odev mapper dsize hds hod hmn]
    unfold noSepDispatch
    rw [hph]
    have h := noSepRecoverHeader_fail env odev mapper dsize cfg st hcpy
    rw [hph] at h
    exact h

/-- A concrete checkpoint at phase `BackupHeader` with an ext4 filesystem. -/
def c2Cfg : OngoingItemConfig :=
  { phase := some Phase.BackupHeader
    original_dev_path := some "/dev/sdc"
    original_dev_name_path := some "/dev/sdc"
    mapper_name := some "m1"
    device_size := some 50000000
    file_system := some "ext4" }

/-- The persisted state holding `c2Cfg`. -/
def c2St : MachineState := { baseState with ongoing := some c2Cfg }

/-- Witness for C2 at a concrete resume entry. -/
theorem C2_backupheader_abandon_later_resume_witness :
    c2Cfg.device_size = some 50000000 ∧
    c2Cfg.original_dev_path = some "/dev/sdc" ∧
    c2Cfg.mapper_name = some "m1" ∧
    c2Cfg.file_system = some "ext4" ∧
    c2St.ongoing = some c2Cfg ∧
    (((c2Cfg.phase = some Phase.BackupHeader ∧
      (["ext2", "ext3", "ext4"].contains (strLower "ext4")) = false) →
      encrypt_inplace_without_separate_header_file baseEnv "pass" dummyDeviceItem (some c2Cfg) c2St
        = (PyRes.ret (some Phase.BackupHeader), clearOngoingConfig c2St)) ∧
    ((c2Cfg.phase = some Phase.BackupHeader ∧
      (["ext2", "ext3", "ext4"].contains (strLower "ext4")) = true ∧
      baseEnv.check_shrink_fs "/dev/sdc" ((50000000 - luks_header_size).fdiv sector_size)
        ≠ process_success) →
      encrypt_inplace_without_separate_header_file baseEnv "pass" dummyDeviceItem (some c2Cfg) c2St
        = (PyRes.ret (some Phase.BackupHeader), clearOngoingConfig c2St)) ∧
    ((c2Cfg.phase = some Phase.BackupHeader ∧
      (["ext2", "ext3", "ext4"].contains (strLower "ext4")) = true ∧
      baseEnv.check_shrink_fs "/dev/sdc" ((50000000 - luks_header_size).fdiv sector_size)
        = process_success ∧
      (∀ c, baseEnv.copyResult c ≠ process_success)) →
      (encrypt_inplace_without_separate_header_file baseEnv "pass" dummyDeviceItem (some c2Cfg) c2St).1
          = PyRes.ret (some Phase.BackupHeader) ∧
      ∃ d, (encrypt_inplace_without_separate_header_file baseEnv "pass" dummyDeviceItem (some c2Cfg) c2St).2.ongoing
            = some d ∧ d.phase = some Phase.BackupHeader) ∧
    ((c2Cfg.phase = some Phase.EncryptDevice ∧
      baseEnv.encrypt_disk "/dev/sdc" "pass" "m1" none ≠ process_success) →
      (encrypt_inplace_without_separate_header_file baseEnv "pass" dummyDeviceItem (some c2Cfg) c2St).1
          = PyRes.ret (some Phase.EncryptDevice) ∧
      ∃ d, (encrypt_inplace_without_separate_header_file baseEnv "pass" dummyDeviceItem (some c2Cfg) c2St).2.ongoing
            = some d ∧ d.phase = some Phase.EncryptDevice) ∧
    ((c2Cfg.phase = some Phase.CopyData ∧
      (∀ c, baseEnv.copyResult c ≠ process_success)) →
      (encrypt_inplace_without_separate_header_file baseEnv "pass" dummyDeviceItem (some c2Cfg) c2St).1
          = PyRes.ret (some Phase.CopyData) ∧
      ∃ d, (encrypt_inplace_without_separate_header_file baseEnv "pass" dummyDeviceItem (some c2Cfg) c2St).2.ongoing
            = some d ∧ d.phase = some Phase.CopyData) ∧
    ((c2Cfg.phase = some Phase.RecoverHeader ∧
      (∀ c, baseEnv.copyResult c ≠ process_success)) →
      (encrypt_inplace_without_separate_header_file baseEnv "pass" dummyDeviceItem (some c2Cfg) c2St).1
          = PyRes.ret (some Phase.RecoverHeader) ∧
      ∃ d, (encrypt_inplace_without_separate_header_file baseEnv "pass" dummyDeviceItem (some c2Cfg) c2St).2.ongoing
            = some d ∧ d.phase = some Phase.RecoverHeader)) :=
  ⟨rfl, rfl, rfl, rfl, rfl,
    C2_backupheader_abandon_later_resume baseEnv "pass" dummyDeviceItem c2Cfg c2St
      "/dev/sdc" "m1" 50000000 "ext4" rfl rfl rfl rfl rfl⟩

/-- Claim C3: no code path creates a fresh OngoingItemConfig while one
already exists.  Each phase machine
(`encrypt_inplace_without_separate_header_file`,
`encrypt_inplace_with_separate_header_file`, `decrypt_inplace_copy_data`)
commits a fresh descriptor only when its `ongoing_item_config` parameter
is `None` - with a loaded config passed in, the ghost counter of fresh
commits never moves - and the daemon's data-volume entry point resumes
(fresh-commit counter unchanged) whenever the OngoingItemConfig exists.
The persisted store holds at most one descriptor by construction
(`MachineState.ongoing` is an `Option`). -/
theorem C3_no_fresh_config_while_one_exists :
    (∀ env p di cfg st,
      (encrypt_inplace_without_separate_header_file env p di (some cfg) st).2.freshOngoingCommits
        = st.freshOngoingCommits) ∧
    (∀ env p di cfg st,
      (encrypt_inplace_with_separate_header_file env p di (some cfg) st).2.freshOngoingCommits
        = st.freshOngoingCommits) ∧
    (∀ env ci md cfg st,
      (decrypt_inplace_copy_data env ci md (some cfg) st).2.freshOngoingCommits
        = st.freshOngoingCommits) ∧
    (∀ env bek os_items st cfg, st.ongoing = some cfg →
      (daemon_encrypt_data_volumes env bek os_items st).2.freshOngoingCommits
        = st.freshOngoingCommits) :=
  ⟨fun env p di cfg st => (preservesF_encrypt_inplace_without_resume env p di cfg st).2,
   fun env p di cfg st => (preservesF_encrypt_inplace_with_resume env p di cfg st).2,
   fun env ci md cfg st => (preservesF_decrypt_inplace_copy_data_resume env ci md cfg st).2,
   fun env bek os_items st cfg h =>
     fresh_daemon_encrypt_data_volumes_resume env bek os_items st cfg h⟩

/-- Witness for C3: the resume branch of the daemon entry point leaves
the fresh-commit counter unchanged on a concrete state. -/
theorem C3_no_fresh_config_while_one_exists_witness :
    c2St.ongoing = some c2Cfg ∧
    (daemon_encrypt_data_volumes baseEnv "pass" [] c2St).2.freshOngoingCommits
      = c2St.freshOngoingCommits :=
  ⟨rfl, C3_no_fresh_config_while_one_exists.2.2.2 baseEnv "pass" [] c2St c2Cfg rfl⟩

/-- Claim C4: `decrypt_inplace_without_separate_header_file` performs the
decryption copy only when raw device size minus mapper device size equals
exactly the LUKS header size read from the device's LUKS metadata; on a
mismatch it returns `None` with the state untouched (no copy, no
OngoingItemConfig), and `disable_encryption_all_in_place` then returns
that crypt item as the failed item, processing no further crypt items
(the state is returned exactly as it was when the item was reached). -/
theorem C4_decrypt_size_precondition (env : Env) (st : MachineState)
    (ci : CryptItem) (raw md : DeviceItem) (payload : Int)
    (hdump : env.luksDumpPayloadSectors ci.dev_path = some payload) :
    -- mismatch: no copy, nothing touched
    ((raw.size - md.size ≠ payload * sector_size) →
      ∀ oic, decrypt_inplace_without_separate_header_file env ci raw md oic st
        = (PyRes.ret none, st)) ∧
    -- match: the copy path is entered
    ((raw.size - md.size = payload * sector_size) →
      ∀ oic, decrypt_inplace_without_separate_header_file env ci raw md oic st
        = decrypt_inplace_copy_data env ci md oic st) ∧
    -- bulk caller: the mismatching item is returned and the loop stops there
    ((raw.size - md.size ≠ payload * sector_size ∧
      ci.luks_header_path = none ∧
      env.device_items.find?
        (fun d => env.realpath ("/dev/" ++ d.name) = env.realpath ci.dev_path) = some raw ∧
      env.device_items.find? (fun d => ci.mapper_name = d.name) = some md) →
      ∀ rest, st.cryptItems = ci :: rest →
        disable_encryption_all_in_place env st = (PyRes.ret (some ci), st)) := by
  refine ⟨?_, ?_, ?_⟩
  · intro hne oic
    unfold decrypt_inplace_without_separate_header_file
    rw [hdump]
    simp [hne]
  · intro heq oic
    unfold decrypt_inplace_without_separate_header_file
    rw [hdump]
    simp [heq]
  · rintro ⟨hne, hhd, hraw, hmd⟩ rest hcry
    unfold disable_encryption_all_in_place
    rw [hcry]
    unfold disableAllLoop
    rw [hraw, hmd]
    rw [hhd]
    have hcall : decrypt_inplace_without_separate_header_file env ci raw md none st
        = (PyRes.ret none, st) := by
      unfold decrypt_inplace_without_separate_header_file
      rw [hdump]
      simp [hne]
    simp [hcall]

/-- A registered no-separate-header crypt item for the C4 witness. -/
def c4Item : CryptItem :=
  { mapper_name := "m1"
    dev_path := "/dev/sdc"
    luks_header_path := none
    file_system := some "ext4"
    uses_cleartext_key := false
    current_luks_slot := 0
    mount_point := "None" }

/-- Raw device of size 10000000000 for the C4 witness. -/
def c4Raw : DeviceItem :=
  { name := "sdc", size := 10000000000, file_system := some "ext4",
    mount_point := none, uuid := "u-sdc" }

/-- Mapper device of the same size 10000000000 (mismatching the LUKS
header size) for the C4 witness. -/
def c4Mapper : DeviceItem :=
  { name := "m1", size := 10000000000, file_system := some "ext4",
    mount_point := none, uuid := "u-m1" }

/-- Environment for the C4 witness. -/
def c4Env : Env :=
  { baseEnv with device_items := [c4Raw, c4Mapper] }

/-- State with the single C4 crypt item registered. -/
def c4St : MachineState := { baseState with cryptItems := [c4Item] }

/-- Witness for C4 with raw size = mapper size = 10000000000. -/
theorem C4_decrypt_size_precondition_witness :
    c4Env.luksDumpPayloadSectors c4Item.dev_path = some 4096 ∧
    (((c4Raw.size - c4Mapper.size ≠ 4096 * sector_size) →
      ∀ oic, decrypt_inplace_without_separate_header_file c4Env c4Item c4Raw c4Mapper oic c4St
        = (PyRes.ret none, c4St)) ∧
    ((c4Raw.size - c4Mapper.size = 4096 * sector_size) →
      ∀ oic, decrypt_inplace_without_separate_header_file c4Env c4Item c4Raw c4Mapper oic c4St
        = decrypt_inplace_copy_data c4Env c4Item c4Mapper oic c4St) ∧
    ((c4Raw.size - c4Mapper.size ≠ 4096 * sector_size ∧
      c4Item.luks_header_path = none ∧
      c4Env.device_items.find?
        (fun d => c4Env.realpath ("/dev/" ++ d.name) = c4Env.realpath c4Item.dev_path) = some c4Raw ∧
      c4Env.device_items.find? (fun d => c4Item.mapper_name = d.name) = some c4Mapper) →
      ∀ rest, c4St.cryptItems = c4Item :: rest →
        disable_encryption_all_in_place c4Env c4St = (PyRes.ret (some c4Item), c4St))) :=
  ⟨rfl, C4_decrypt_size_precondition c4Env c4St c4Item c4Raw c4Mapper 4096 rfl⟩

/-- `true` for every event except a luks-open call. -/
def notLuksOpen : Event → Bool
  | Event.luksOpenCall _ _ => false
  | _ => true

/-- Claim C5: in the `CopyData` phase of the separate-header machine the
luks-open is skipped whenever the mapper device path already exists (the
phase reduces to the post-open tail, which performs no luks-open call);
the committed copy descriptor covers the entire device size from end to
start; and whenever the copy primitive reports success the machine
registers the CryptItem with its header path, removes the stale fstab
entry, mounts if a mount point is defined, returns phase `Done` and
clears the OngoingItemConfig. -/
theorem C5_sep_copydata (env : Env) (p : String) (cfg : OngoingItemConfig)
    (st : MachineState) (mapper odev : String)
    (hmn : cfg.mapper_name = some mapper)
    (hod : cfg.original_dev_path = some odev) :
    -- (a) mapper path exists: the open step is skipped
    (env.path_exists (dev_mapper_root ++ mapper) = true →
      sepCopyData env p cfg st
        = sepCopyDataTail env mapper odev cfg.luks_header_file_path cfg st) ∧
    -- (a2) the tail never invokes luks-open
    (∀ h, ∃ Δ, (sepCopyDataTail env mapper odev h cfg st).2.trace = st.trace ++ Δ ∧
      Δ.all notLuksOpen = true) ∧
    -- (b) the committed descriptor covers the whole device, from the end
    (∀ h, ∃ d Δ,
      (sepCopyDataTail env mapper odev h cfg st).2.trace
          = st.trace ++ Event.copyCall d :: Δ ∧
      d.current_source_path = some odev ∧
      d.current_destination = some (dev_mapper_root ++ mapper) ∧
      d.current_total_copy_size = cfg.device_size ∧
      d.from_end = some true) ∧
    -- (c) copy success: register (with header path), fix fstab, mount, Done, clear
    (∀ h onp mp, cfg.original_dev_name_path = some onp →
      cfg.mount_point = some mp → mp ≠ "" → mp ≠ "None" →
      (∀ c, env.copyResult c = process_success) →
      (sepCopyDataTail env mapper odev h cfg st).1
          = PyRes.ret (some Phase.EncryptionDone) ∧
      (sepCopyDataTail env mapper odev h cfg st).2.ongoing = none ∧
      (∃ ci, Event.addCryptItemCall ci
          ∈ (sepCopyDataTail env mapper odev h cfg st).2.trace ∧
        ci.mapper_name = mapper ∧ ci.luks_header_path = h ∧ ci.mount_point = mp) ∧
      Event.mountCall (dev_mapper_root ++ mapper) mp
          ∈ (sepCopyDataTail env mapper odev h cfg st).2.trace ∧
      Event.removeMountInfoCall mp
          ∈ (sepCopyDataTail env mapper odev h cfg st).2.trace) := by
  refine ⟨?_, ?_, ?_, ?_⟩
  · intro hex
    unfold sepCopyData
    rw [hmn, hod]
    dsimp only
    rw [hex]
    rfl
  · intro h
    unfold sepCopyDataTail
    cases hsi : cfg.current_slice_index <;>
      (repeat' (first | dsimp only | split)) <;>
      exact ⟨_, by simp; try rfl, by rfl⟩
  · intro h
    unfold sepCopyDataTail
    cases hsi : cfg.current_slice_index <;>
      (repeat' (first | dsimp only | split)) <;>
      exact ⟨_, _,
        by
          simp only [clearOngoing_trace, commitOngoing_trace, addCryptItem_trace,
            emit_trace, doCopy_trace, List.append_assoc, List.cons_append,
            List.nil_append, List.append_nil]
          rfl,
        by simp, by simp, by simp, by simp⟩
  · intro h onp mp honp hmp hne1 hne2 hcpy
    unfold sepCopyDataTail
    cases hsi : cfg.current_slice_index <;>
      (repeat' (first | dsimp only | split)) <;>
      simp_all [process_success, common_success] <;>
      try exact ⟨_, Or.inr rfl, rfl, rfl, rfl⟩

/-- Concrete separate-header checkpoint for the C5 witness. -/
def c5Cfg : OngoingItemConfig :=
  { phase := some Phase.CopyData
    original_dev_path := some "/dev/disk/by-uuid/u1"
    original_dev_name_path := some "/dev/sdd"
    mapper_name := some "m1"
    device_size := some 777000000
    file_system := some "ext4"
    mount_point := some "/data"
    current_slice_index := some 0
    luks_header_file_path := some "/headers/m1" }

/-- Witness for C5 at a concrete separate-header checkpoint. -/
theorem C5_sep_copydata_witness :
    c5Cfg.mapper_name = some "m1" ∧
    c5Cfg.original_dev_path = some "/dev/disk/by-uuid/u1" ∧
    ((baseEnv.path_exists (dev_mapper_root ++ "m1") = true →
      sepCopyData baseEnv "pass" c5Cfg baseState
        = sepCopyDataTail baseEnv "m1" "/dev/disk/by-uuid/u1"
            c5Cfg.luks_header_file_path c5Cfg baseState) ∧
    (∀ h, ∃ Δ, (sepCopyDataTail baseEnv "m1" "/dev/disk/by-uuid/u1" h c5Cfg baseState).2.trace
        = baseState.trace ++ Δ ∧ Δ.all notLuksOpen = true) ∧
    (∀ h, ∃ d Δ,
      (sepCopyDataTail baseEnv "m1" "/dev/disk/by-uuid/u1" h c5Cfg baseState).2.trace
          = baseState.trace ++ Event.copyCall d :: Δ ∧
      d.current_source_path = some "/dev/disk/by-uuid/u1" ∧
      d.current_destination = some (dev_mapper_root ++ "m1") ∧
      d.current_total_copy_size = c5Cfg.device_size ∧
      d.from_end = some true) ∧
    (∀ h onp mp, c5Cfg.original_dev_name_path = some onp →
      c5Cfg.mount_point = some mp → mp ≠ "" → mp ≠ "None" →
      (∀ c, baseEnv.copyResult c = process_success) →
      (sepCopyDataTail baseEnv "m1" "/dev/disk/by-uuid/u1" h c5Cfg baseState).1
          = PyRes.ret (some Phase.EncryptionDone) ∧
      (sepCopyDataTail baseEnv "m1" "/dev/disk/by-uuid/u1" h c5Cfg baseState).2.ongoing = none ∧
      (∃ ci, Event.addCryptItemCall ci
          ∈ (sepCopyDataTail baseEnv "m1" "/dev/disk/by-uuid/u1" h c5Cfg baseState).2.trace ∧
        ci.mapper_name = "m1" ∧ ci.luks_header_path = h ∧ ci.mount_point = mp) ∧
      Event.mountCall (dev_mapper_root ++ "m1") mp
          ∈ (sepCopyDataTail baseEnv "m1" "/dev/disk/by-uuid/u1" h c5Cfg baseState).2.trace ∧
      Event.removeMountInfoCall mp
          ∈ (sepCopyDataTail baseEnv "m1" "/dev/disk/by-uuid/u1" h c5Cfg baseState).2.trace)) :=
  ⟨rfl, rfl,
    C5_sep_copydata baseEnv "pass" c5Cfg baseState "m1" "/dev/disk/by-uuid/u1" rfl rfl⟩

/-- The selection policy exactly as claim C8 words it (spec-side
definition, for comparison with the source's
`find_all_devices_to_encrypt`): a device is excluded iff it is skippable
for in-place encryption, or backs the passphrase volume, or - for the
`EnableEncryptionFormatAll` command only - has an empty mount point or no
azure udev alias. -/
def claimSelectionPolicy (env : Env) (marker : EncryptionMarkConfig)
    (d : DeviceItem) : Bool :=
  decide (¬ (env.should_skip_for_inplace d marker.volume_type = true ∨
    d.name = env.passphrase_device ∨
    (marker.command = EnableEncryptionFormatAll ∧
      (d.mount_point = none ∨ d.mount_point = some "" ∨
        (env.udev_table ("/dev/" ++ d.name)).isNone))))

/-- Keep the first device item of each name, dropping names in `seen`
(spec-side companion of `claimSelectionPolicy`). -/
def dedupByName (seen : List String) : List DeviceItem → List DeviceItem
  | [] => []
  | d :: ds =>
    if d.name ∈ seen then dedupByName seen ds
    else d :: dedupByName (d.name :: seen) ds

theorem dedupByName_cons (seen : List String) (d : DeviceItem)
    (ds : List DeviceItem) :
    dedupByName seen (d :: ds)
      = if d.name ∈ seen then dedupByName seen ds
        else d :: dedupByName (d.name :: seen) ds := rfl

theorem dedupByName_congr (s1 s2 : List String)
    (h : ∀ x, x ∈ s1 ↔ x ∈ s2) :
    ∀ l, dedupByName s1 l = dedupByName s2 l := by
  intro l
  induction l generalizing s1 s2 with
  | nil => rfl
  | cons d ds ih =>
    rw [dedupByName_cons, dedupByName_cons]
    by_cases hd : d.name ∈ s1
    · rw [if_pos hd, if_pos ((h d.name).mp hd)]
      exact ih s1 s2 h
    · rw [if_neg hd, if_neg (fun hx => hd ((h d.name).mpr hx))]
      refine congrArg (d :: ·) (ih _ _ ?_)
      intro x
      simp [h x]

theorem findAllGo_spec (env : Env) (marker : EncryptionMarkConfig) :
    ∀ (items : List DeviceItem) (acc : List DeviceItem),
      findAllGo env marker.command marker.volume_type items acc
        = acc ++ dedupByName (acc.map (fun di => di.name))
            (items.filter (claimSelectionPolicy env marker)) := by
  intro items
  induction items with
  | nil => intro acc; simp [findAllGo, dedupByName]
  | cons d rest ih =>
    intro acc
    unfold findAllGo
    by_cases hdup : (acc.any fun di => di.name = d.name) = true
    · rw [if_pos hdup]
      rw [ih acc]
      have hmem : d.name ∈ acc.map (fun di => di.name) := by
        simp only [List.any_eq_true, decide_eq_true_eq] at hdup
        obtain ⟨di, hdi, hname⟩ := hdup
        exact List.mem_map.mpr ⟨di, hdi, hname⟩
      by_cases hP : claimSelectionPolicy env marker d = true
      · simp only [List.filter_cons, hP, if_true]
        rw [dedupByName_cons, if_pos hmem]
      · simp only [List.filter_cons, hP]
        simp
    · rw [if_neg hdup]
      have hnmem : d.name ∉ acc.map (fun di => di.name) := by
        intro hx
        apply hdup
        simp only [List.any_eq_true, decide_eq_true_eq]
        obtain ⟨di, hdi, hname⟩ := List.mem_map.mp hx
        exact ⟨di, hdi, hname⟩
      by_cases hskip : env.should_skip_for_inplace d marker.volume_type = true
      · rw [if_pos hskip]
        rw [ih acc]
        have hP : claimSelectionPolicy env marker d = false := by
          simp only [claimSelectionPolicy, decide_eq_false_iff_not, not_not]
          tauto
        simp only [List.filter_cons, hP]
        simp
      · rw [if_neg hskip]
        by_cases hpass : d.name = env.passphrase_device
        · rw [if_pos hpass]
          rw [ih acc]
          have hP : claimSelectionPolicy env marker d = false := by
            simp only [claimSelectionPolicy, decide_eq_false_iff_not, not_not]
            tauto
          simp only [List.filter_cons, hP]
          simp
        · rw [if_neg hpass]
          by_cases hfa1 : marker.command = EnableEncryptionFormatAll ∧
              (d.mount_point = none ∨ d.mount_point = some "")
          · rw [if_pos hfa1]
            rw [ih acc]
            have hP : claimSelectionPolicy env marker d = false := by
              simp only [claimSelectionPolicy, decide_eq_false_iff_not, not_not]
              tauto
            simp only [List.filter_cons, hP]
            simp
          · rw [if_neg hfa1]
            by_cases hfa2 : marker.command = EnableEncryptionFormatAll ∧
                (env.udev_table ("/dev/" ++ d.name)).isNone
            · rw [if_pos hfa2]
              rw [ih acc]
              have hP : claimSelectionPolicy env marker d = false := by
                simp only [claimSelectionPolicy, decide_eq_false_iff_not, not_not]
                tauto
              simp only [List.filter_cons, hP]
              simp
            · rw [if_neg hfa2]
              rw [ih (acc ++ [d])]
              have hP : claimSelectionPolicy env marker d = true := by
                simp only [claimSelectionPolicy, decide_eq_true_eq]
                tauto
              simp only [List.filter_cons, hP, if_true]
              rw [dedupByName_cons, if_neg hnmem]
              rw [dedupByName_congr ((acc ++ [d]).map (fun di => di.name))
                    (d.name :: acc.map (fun di => di.name))
                    (by intro x; simp [or_comm])
                    (List.filter (claimSelectionPolicy env marker) rest)]
              simp

/-- Claim C8: `find_all_devices_to_encrypt` selects exactly the device
items passing the policy of claim C8 (not skippable for in-place
encryption, not the passphrase-backing device), deduplicated by name
keeping first occurrences; the empty-mount-point and no-udev-alias
exclusions are part of the policy exactly when the marked command is
`EnableEncryptionFormatAll`, and for any other command the selection
equals the policy without those two exclusions. -/
theorem C8_selection_policy (env : Env) (marker : EncryptionMarkConfig) :
    find_all_devices_to_encrypt env marker
      = dedupByName [] (env.device_items.filter (claimSelectionPolicy env marker)) ∧
    (marker.command ≠ EnableEncryptionFormatAll →
      find_all_devices_to_encrypt env marker
        = dedupByName [] (env.device_items.filter (fun d =>
            decide (¬ (env.should_skip_for_inplace d marker.volume_type = true ∨
              d.name = env.passphrase_device))))) := by
  have h := findAllGo_spec env marker env.device_items []
  constructor
  · simpa [find_all_devices_to_encrypt] using h
  · intro hcmd
    have h2 : env.device_items.filter (claimSelectionPolicy env marker)
        = env.device_items.filter (fun d =>
            decide (¬ (env.should_skip_for_inplace d marker.volume_type = true ∨
              d.name = env.passphrase_device))) := by
      apply List.filter_congr
      intro d _
      simp [claimSelectionPolicy, hcmd]
    rw [← h2]
    simpa [find_all_devices_to_encrypt] using h

/-- A plain-encrypt marker (not format-all) for the C8 witness. -/
def c8Marker : EncryptionMarkConfig :=
  { command := EnableEncryption, volume_type := some "Data", diskFormatQuery := "" }

/-- Witness for C8 with the plain encrypt-all command. -/
theorem C8_selection_policy_witness :
    c8Marker.command ≠ EnableEncryptionFormatAll ∧
    (find_all_devices_to_encrypt c4Env c8Marker
      = dedupByName [] (c4Env.device_items.filter (claimSelectionPolicy c4Env c8Marker)) ∧
    find_all_devices_to_encrypt c4Env c8Marker
      = dedupByName [] (c4Env.device_items.filter (fun d =>
          decide (¬ (c4Env.should_skip_for_inplace d c8Marker.volume_type = true ∨
            d.name = c4Env.passphrase_device))))) :=
  ⟨by decide,
    (C8_selection_policy c4Env c8Marker).1,
    (C8_selection_policy c4Env c8Marker).2 (by decide)⟩

/-- Claim C9: in the device loop of `enable_encryption_all_in_place`, a
selected device with a non-empty mount point whose unmount fails is
skipped: it is not encrypted (the iteration adds only the unmount call
and runs no machine) and it is not returned as the failed item - the
loop simply continues with the remaining devices - and if the remaining
devices all reach `Done` the loop still returns `None` (overall
success) despite the skipped device. -/
theorem C9_umount_failure_skips_device (env : Env) (p : String)
    (d : DeviceItem) (rest : List DeviceItem) (st : MachineState)
    (mp : String) (hmp : d.mount_point = some mp) (hne : mp ≠ "")
    (hum : env.umount mp ≠ common_success) :
    encryptAllInPlaceLoop env p (d :: rest) st
      = encryptAllInPlaceLoop env p rest (emit (Event.umountCall mp) st) ∧
    (∀ st', encryptAllInPlaceLoop env p rest (emit (Event.umountCall mp) st)
        = (PyRes.ret none, st') →
      encryptAllInPlaceLoop env p (d :: rest) st = (PyRes.ret none, st')) := by
  have hstep : encryptAllInPlaceStep env p d st
      = (none, emit (Event.umountCall mp) st) := by
    unfold encryptAllInPlaceStep
    rw [hmp]
    simp [hne, hum]
  have hloop : encryptAllInPlaceLoop env p (d :: rest) st
      = encryptAllInPlaceLoop env p rest (emit (Event.umountCall mp) st) := by
    simp only [encryptAllInPlaceLoop, hstep]
  exact ⟨hloop, fun st' h => hloop.trans h⟩

/-- A selected data disk mounted at a non-empty mount point. -/
def c9d : DeviceItem :=
  { name := "sdc", size := 1024, file_system := "ext4"
    mount_point := some "/mnt/c9", uuid := "u-c9" }

/-- An environment in which every unmount fails. -/
def c9Env : Env := { baseEnv with umount := fun _ => 1 }

theorem C9_umount_failure_skips_device_witness :
    c9d.mount_point = some "/mnt/c9" ∧ ("/mnt/c9" : String) ≠ "" ∧
    c9Env.umount "/mnt/c9" ≠ common_success ∧
    encryptAllInPlaceLoop c9Env "pf" [c9d] baseState
      = encryptAllInPlaceLoop c9Env "pf" []
          (emit (Event.umountCall "/mnt/c9") baseState) :=
  ⟨rfl, by decide, by decide,
   (C9_umount_failure_skips_device c9Env "pf" c9d [] baseState "/mnt/c9"
     rfl (by decide) (by decide)).1⟩

/-- An event is compatible with a fully successful cleartext-key pass:
any recorded `luks_add_cleartext_key` call carries the success code. -/
def cleartextAddOk : Event → Bool
  | Event.luksAddCleartextKeyCall _ _ code => code == process_success
  | _ => true

/-- Rewriting one item of the registry with `uses_cleartext_key = True`
shrinks the list of mappers still waiting for a cleartext key slot. -/
theorem updateCryptItem_inv (ci ci' : CryptItem) (rest : List CryptItem)
    (st : MachineState)
    (hm : ci'.mapper_name = ci.mapper_name)
    (hu : ci'.uses_cleartext_key = true)
    (hinv : ∀ e ∈ st.cryptItems, e.uses_cleartext_key = true ∨
      e.mapper_name ∈ (ci :: rest).map (fun c => c.mapper_name)) :
    ∀ e ∈ (updateCryptItem ci' st).cryptItems,
      e.uses_cleartext_key = true ∨
        e.mapper_name ∈ rest.map (fun c => c.mapper_name) := by
  intro e he
  simp only [updateCryptItem, List.mem_map] at he
  obtain ⟨x, hx, hfx⟩ := he
  by_cases hxm : x.mapper_name = ci'.mapper_name
  · rw [if_pos hxm] at hfx
    subst hfx
    exact Or.inl hu
  · rw [if_neg hxm] at hfx
    subst hfx
    rcases hinv x hx with h1 | h1
    · exact Or.inl h1
    · simp only [List.map_cons, List.mem_cons] at h1
      rcases h1 with h1 | h1
      · exact absurd (h1.trans hm.symm) hxm
      · exact Or.inr h1

theorem disableEncryptionLoop_spec (env : Env) (bek cmd : String)
    (vt : Option String) (items : List CryptItem) :
    ∀ (st : MachineState),
      st.decryptionMark = none →
      (∀ e ∈ st.cryptItems,
        e.uses_cleartext_key = true ∨
          e.mapper_name ∈ items.map (fun c => c.mapper_name)) →
      ∀ r st', disableEncryptionLoop env bek cmd vt items st = (r, st') →
        (st'.decryptionMark.isSome →
           r = PyRes.ret () ∧
           (∀ e ∈ st'.cryptItems, e.uses_cleartext_key = true) ∧
           ∃ Δ, st'.trace = st.trace ++ Δ ∧ Δ.all cleartextAddOk = true) ∧
        (r = PyRes.exn → st'.decryptionMark = none) := by
  induction items with
  | nil =>
    intro st hdm hinv r st' heq
    simp only [disableEncryptionLoop] at heq
    injection heq with h1 h2
    subst h1; subst h2
    constructor
    · intro _
      refine ⟨rfl, ?_, [], by simp, rfl⟩
      intro e he
      exact (hinv e he).resolve_right (by simp)
    · intro h; cases h
  | cons ci rest ih =>
    intro st hdm hinv r st' heq
    simp only [disableEncryptionLoop] at heq
    split at heq
    · injection heq with h1 h2
      subst h1; subst h2
      exact ⟨fun hs => by simp [hdm] at hs, fun _ => by simp [hdm]⟩
    · rename_i hc
      have hcode : env.luks_add_cleartext_key ci.dev_path ci.mapper_name
          ci.luks_header_path = process_success := by
        by_contra h; exact hc h
      have h := ih _ (by simp [updateCryptItem, hdm])
        (updateCryptItem_inv ci
          { ci with
            dev_path :=
              if "/dev/sd".isPrefixOf ci.dev_path then
                env.query_dev_id_path ci.dev_path
              else ci.dev_path,
            uses_cleartext_key := true }
          rest
          (emit (Event.luksAddCleartextKeyCall ci.dev_path ci.mapper_name
            (env.luks_add_cleartext_key ci.dev_path ci.mapper_name
              ci.luks_header_path)) st)
          rfl rfl (fun e he => hinv e he))
        r st' heq
      refine ⟨?_, h.2⟩
      intro hs
      obtain ⟨hr, hreg, Δ, hΔ, hall⟩ := h.1 hs
      refine ⟨hr, hreg,
        Event.luksAddCleartextKeyCall ci.dev_path ci.mapper_name
          (env.luks_add_cleartext_key ci.dev_path ci.mapper_name
            ci.luks_header_path) :: Δ, ?_, ?_⟩
      · rw [hΔ]; simp
      · simp [cleartextAddOk, hcode, hall]

/-- Claim C10: in `disable_encryption`, the decryption marker is committed
only after every registered crypt item had a cleartext key slot added
successfully (every recorded `luks_add_cleartext_key` call in the new
trace carries the success code) and had its registry entry rewritten with
`uses_cleartext_key = True`; an addition failure raises before the marker
commit, so whenever the marker exists every registered item is unlockable
without the BEK passphrase. -/
theorem C10_cleartext_before_marker (env : Env) (bek cmd : String)
    (vt : Option String) (st : MachineState)
    (hdm : st.decryptionMark = none) :
    ∀ r st', disable_encryption_core env bek cmd vt st = (r, st') →
      (st'.decryptionMark.isSome →
         r = PyRes.ret () ∧
         (∀ e ∈ st'.cryptItems, e.uses_cleartext_key = true) ∧
         ∃ Δ, st'.trace = st.trace ++ Δ ∧ Δ.all cleartextAddOk = true) ∧
      (r = PyRes.exn → st'.decryptionMark = none) := by
  intro r st' heq
  unfold disable_encryption_core at heq
  split at heq
  · injection heq with h1 h2
    subst h1; subst h2
    exact ⟨fun hs => by simp [hdm] at hs, fun _ => hdm⟩
  · exact disableEncryptionLoop_spec env bek cmd vt st.cryptItems st hdm
      (fun e he => Or.inr (List.mem_map_of_mem _ he)) r st' heq

/-- A registered crypt item still unlockable only with the BEK. -/
def c10ci : CryptItem :=
  { mapper_name := "m10", dev_path := "/dev/sdd", luks_header_path := none
    file_system := some "ext4", uses_cleartext_key := false
    current_luks_slot := 0, mount_point := "/mnt/x" }

/-- A state whose registry holds `c10ci` and that has no decryption mark. -/
def c10St : MachineState := { baseState with cryptItems := [c10ci] }

theorem C10_cleartext_before_marker_witness :
    c10St.decryptionMark = none ∧
    (disable_encryption_core baseEnv "bek" "cmd" (some "Data") c10St).1
      = PyRes.ret () ∧
    ∀ e ∈ (disable_encryption_core baseEnv "bek" "cmd"
        (some "Data") c10St).2.cryptItems,
      e.uses_cleartext_key = true := by
  refine ⟨rfl, ?_⟩
  have h := C10_cleartext_before_marker baseEnv "bek" "cmd" (some "Data")
    c10St rfl
    (disable_encryption_core baseEnv "bek" "cmd" (some "Data") c10St).1
    (disable_encryption_core baseEnv "bek" "cmd" (some "Data") c10St).2 rfl
  have h1 := h.1 (by decide)
  exact ⟨h1.1, h1.2.1⟩

/-- An encrypt-and-format marker whose `diskFormatQuery` does not parse. -/
def c6Mark : EncryptionMarkConfig :=
  { command := EnableEncryptionFormat, volume_type := some "Data"
    diskFormatQuery := "bad" }

/-- A machine with encryption settings, the unparsable format marker and
no decryption marker. -/
def c6St : MachineState :=
  { baseState with
      encryptionMark := some c6Mark
      encryptionConfig :=
        some { volume_type := some VolumeTypeData, secret_seq_num := none } }

/-- Claim C6 is refuted as stated: on this machine the daemon's encrypt
path fails (exits with error status, `daemon_encrypt` did not complete
normally) yet the EncryptionMarkConfig is cleared rather than left
intact - the disk-format-query parse failure clears the marker before
re-raising. -/
theorem C6_counterexample :
    c6St.encryptionMark.isSome = true ∧
    (daemon baseEnv c6St).1 = PyRes.exited false ∧
    (daemon baseEnv c6St).2.encryptionMark = none :=
  ⟨rfl, by rfl, by rfl⟩

/-- Claim C6, amended: with the lock held, (i) a present decryption
marker makes the daemon run only the decryption path (the decryption
ghost counter is bumped, the encryption one is not); (ii)
`daemon_decrypt` clears the decryption marker exactly when
`disable_encryption_all_in_place` decrypted every item (a failed item
exits with error status and the state from the failed run); (iii)
without a decryption marker the daemon runs only the encryption path,
and clears the encryption marker exactly when `daemon_encrypt` returns
normally, while an exception reaches `do_exit` with the state as the
failing run left it; (iv) the one exception to "the mark is left intact
on failure": a disk-format-query parse failure inside
`daemon_encrypt_data_volumes` clears the encryption marker before
re-raising. -/
theorem C6_daemon_mark_lifecycle (env : Env) (st : MachineState)
    (hlock : env.lock_ok = true) :
    (∀ dm, st.decryptionMark = some dm →
       (daemon env st).2.decPathRuns = st.decPathRuns + 1 ∧
       (daemon env st).2.encPathRuns = st.encPathRuns) ∧
    (∀ dm, st.decryptionMark = some dm → st.ongoing = none →
       dm.command = DisableEncryption →
       (∀ st2, disable_encryption_all_in_place env st = (PyRes.ret none, st2) →
          daemon_decrypt env st
            = (PyRes.exited true,
               { st2 with encryptionConfig := none, decryptionMark := none })) ∧
       (∀ ci st2,
          disable_encryption_all_in_place env st = (PyRes.ret (some ci), st2) →
          daemon_decrypt env st = (PyRes.exited false, st2))) ∧
    (st.decryptionMark = none →
       (daemon env st).2.encPathRuns = st.encPathRuns + 1 ∧
       (daemon env st).2.decPathRuns = st.decPathRuns ∧
       (∀ x st2,
          daemon_encrypt env { st with encPathRuns := st.encPathRuns + 1 }
            = (PyRes.ret x, st2) →
          daemon env st = (PyRes.ret (), { st2 with encryptionMark := none })) ∧
       (∀ st2,
          daemon_encrypt env { st with encPathRuns := st.encPathRuns + 1 }
            = (PyRes.exn, st2) →
          daemon env st = (PyRes.exited false, st2))) ∧
    (∀ bek os mark, st.ongoing = none → st.encryptionMark = some mark →
       mark.command = EnableEncryptionFormat →
       env.parse_disk_format_query mark.diskFormatQuery = none →
       daemon_encrypt_data_volumes env bek os st
         = (PyRes.exn, { st with encryptionMark := none })) := by
  have hnl : ¬(env.lock_ok = false) := by simp [hlock]
  refine ⟨?_, ?_, ?_, ?_⟩
  · intro dm hdm
    obtain ⟨og, cis, em, dmk, ecfg, tr, uc, epr, dpr, foc⟩ := st
    try dsimp only at hdm
    subst hdm
    unfold daemon
    rw [if_neg hnl]
    try dsimp only
    rcases hdd : daemon_decrypt env
        ⟨og, cis, em, some dm, ecfg, tr, uc, epr, dpr + 1, foc⟩
      with ⟨r, st2⟩
    have hp := preserves_daemon_decrypt env
      ⟨og, cis, em, some dm, ecfg, tr, uc, epr, dpr + 1, foc⟩
    rw [hdd] at hp
    obtain ⟨-, he, hd⟩ := hp
    try rw [hdd]
    cases r <;> exact ⟨hd, he⟩
  · intro dm hdm hong hcmd
    constructor
    · intro st2 hda
      unfold daemon_decrypt
      simp only [hdm, hong, hcmd, if_pos]
      rw [hda]
    · intro ci st2 hda
      unfold daemon_decrypt
      simp only [hdm, hong, hcmd, if_pos]
      rw [hda]
  · intro hdm
    obtain ⟨og, cis, em, dmk, ecfg, tr, uc, epr, dpr, foc⟩ := st
    try dsimp only at hdm
    subst hdm
    refine ⟨?_, ?_, ?_, ?_⟩
    · unfold daemon
      rw [if_neg hnl]
      try dsimp only
      rcases hde : daemon_encrypt env
          ⟨og, cis, em, none, ecfg, tr, uc, epr + 1, dpr, foc⟩
        with ⟨r, st2⟩
      have hp := preserves_daemon_encrypt env
        ⟨og, cis, em, none, ecfg, tr, uc, epr + 1, dpr, foc⟩
      rw [hde] at hp
      obtain ⟨-, he, -⟩ := hp
      try rw [hde]
      cases r <;> exact he
    · unfold daemon
      rw [if_neg hnl]
      try dsimp only
      rcases hde : daemon_encrypt env
          ⟨og, cis, em, none, ecfg, tr, uc, epr + 1, dpr, foc⟩
        with ⟨r, st2⟩
      have hp := preserves_daemon_encrypt env
        ⟨og, cis, em, none, ecfg, tr, uc, epr + 1, dpr, foc⟩
      rw [hde] at hp
      obtain ⟨-, -, hd⟩ := hp
      try rw [hde]
      cases r <;> exact hd
    · intro x st2 hde
      unfold daemon
      rw [if_neg hnl]
      try dsimp only
      try dsimp only at hde
      rw [hde]
    · intro st2 hde
      unfold daemon
      rw [if_neg hnl]
      try dsimp only
      try dsimp only at hde
      rw [hde]
  · intro bek os mark hong hmark hcmd hparse
    have hne : EnableEncryptionFormat ≠ EnableEncryption := by decide
    unfold daemon_encrypt_data_volumes
    simp only [hong, hmark, hcmd, hparse, if_neg hne, if_pos]

/-- A machine whose only pending work is a decryption marker. -/
def c6DecSt : MachineState :=
  { baseState with
      decryptionMark :=
        some { command := DisableEncryption, volume_type := some "Data" } }

theorem C6_daemon_mark_lifecycle_witness :
    baseEnv.lock_ok = true ∧
    (daemon baseEnv c6DecSt).2.decPathRuns = c6DecSt.decPathRuns + 1 ∧
    (daemon baseEnv c6DecSt).2.encPathRuns = c6DecSt.encPathRuns := by
  have h := C6_daemon_mark_lifecycle baseEnv c6DecSt rfl
  exact ⟨rfl, (h.1 _ rfl).1, (h.1 _ rfl).2⟩
